import Mathlib

/- Verification development for the bill-reporter repository
   (`main.py`, `generate_bill_report.py`): a shallow embedding of the
   freshness comparator, the orchestration loop of the incremental-sync
   entry point, the report queries and totals, the artifact write, the
   CLI validation prologue, and the per-row timestamp display, with
   theorems settling the frozen claims about them.

   Modelling conventions:
   - Python/SQLite timestamps (Unix seconds, file mtimes) are rationals.
   - Python strings (the stored `TIME` text) are lists of character
     codes (`List ℕ`); SQLite's `MAX(TIME)` over ASCII text is
     lexicographic maximum over those lists.
   - Monetary amounts are rationals.  `decimal.Decimal` arithmetic on
     amounts is exact rational arithmetic; Python/SQLite binary64
     (`float`) addition is exact addition followed by rounding to 53
     significant bits, round-to-nearest, ties-to-even (`fadd` below;
     overflow and subnormals are not modelled, all values in scope are
     in the normal range). -/

/- The arithmetic of `ℚ` is used computationally throughout (witnesses
and counterexamples evaluate the embedded program on concrete inputs),
so the rational operations must unfold during elaboration. -/
set_option allowUnsafeReducibility true
attribute [semireducible] Rat.add Rat.mul Rat.sub Rat.inv Rat.ofScientific

/-- Freshness comparator from `main.py` (`needs_regeneration`):
`db_time` is the key's freshness watermark (`None` when absent),
`html_time` the output artifact's last-write time (`None` when the file
does not exist). -/
def needs_regeneration (db_time html_time : Option ℚ) : Bool :=
  match db_time with
  | none => false
  | some d =>
    match html_time with
    | none => true
    | some h => decide (d > h)

/-- Floor of a rational as an integer (`Int.fdiv` is floor division). -/
def ratFloorZ (q : ℚ) : ℤ :=
  q.num.fdiv q.den

/-- Ceiling of a rational as an integer. -/
def ratCeilZ (q : ℚ) : ℤ :=
  -(ratFloorZ (-q))

/-- Round a rational to the nearest integer, ties to even (the rounding
used both by IEEE-754 binary64 operations and by Python's fixed-point
formatting). -/
def roundHalfEvenInt (q : ℚ) : ℤ :=
  let fl := ratFloorZ q
  let fr := q - (fl : ℚ)
  if fr < 1/2 then fl
  else if (1:ℚ)/2 < fr then fl + 1
  else if fl % 2 = 0 then fl else fl + 1

/-- Bit length of a natural number (fuel-based so that it reduces in the
kernel); `natBits n = ⌊log2 n⌋ + 1` for `n ≥ 1`, and `0` for `0`. -/
def natBitsAux : ℕ → ℕ → ℕ
  | 0, _ => 0
  | f + 1, n => if n = 0 then 0 else natBitsAux f (n / 2) + 1

/-- Bit length of a natural number. -/
def natBits (n : ℕ) : ℕ :=
  natBitsAux (n + 1) n

/-- Floor of the base-2 logarithm of a positive rational. -/
def ratFloorLog2 (q : ℚ) : ℤ :=
  if 1 ≤ q then (natBits (ratFloorZ q).toNat : ℤ) - 1
  else -((natBits (ratCeilZ (1 / q) - 1).toNat : ℤ))

/-- Integer power of two as a rational. -/
def pow2Z (e : ℤ) : ℚ :=
  if 0 ≤ e then ((2 ^ e.toNat : ℕ) : ℚ) else (1 : ℚ) / ((2 ^ (-e).toNat : ℕ) : ℚ)

/-- Round a positive rational to 53 significant bits, round-to-nearest
ties-to-even: the IEEE-754 binary64 rounding of a positive real in the
normal range. -/
def roundPosF64 (q : ℚ) : ℚ :=
  let e : ℤ := ratFloorLog2 q - 52
  (roundHalfEvenInt (q / pow2Z e) : ℚ) * pow2Z e

/-- IEEE-754 binary64 rounding of a rational (normal range; overflow and
subnormals out of scope for the values handled by this program). -/
def roundF64 (q : ℚ) : ℚ :=
  if q = 0 then 0
  else if q < 0 then -(roundPosF64 (-q)) else roundPosF64 q

/-- Binary64 addition: exact sum, then binary64 rounding.  This is the
semantics of Python float `+` and of SQLite's `SUM` accumulation over
`REAL` values. -/
def fadd (x y : ℚ) : ℚ :=
  roundF64 (x + y)

/-- Left-to-right binary64 summation: models Python's
`sum([...])` over floats (`main.py` line 151,
`generate_bill_report.py` line 964) and SQLite's `SUM(AMOUNT)`
accumulation over a group's rows. -/
def f64Sum (xs : List ℚ) : ℚ :=
  xs.foldl fadd 0

/-- Number of cents displayed by `format_amount` / an `:.2f` format of
the exact value `q`: Python renders the exact decimal expansion of the
(binary64 or Decimal) value with two fraction digits, rounding
half-to-even.  Two rendered amounts are equal iff their cent counts are
(for the non-negative amounts in scope). -/
def round2he (q : ℚ) : ℤ :=
  roundHalfEvenInt (100 * q)

/-- Insert `x` into `l` placing it before the first element `y` with
`le x y = true` (insertion step of an insertion sort). -/
def insertBy (le : α → α → Bool) (x : α) : List α → List α
  | [] => [x]
  | y :: ys => if le x y then x :: y :: ys else y :: insertBy le x ys

/-- Insertion sort by the boolean relation `le`; models Python's
`list.sort` / SQL `ORDER BY` (the lists sorted in this development have
pairwise distinct keys, so any correct sort yields the same list). -/
def sortBy (le : α → α → Bool) : List α → List α
  | [] => []
  | x :: xs => insertBy le x (sortBy le xs)

/-- Strict lexicographic order on character-code lists: the ordering
SQLite's default BINARY collation gives to the ASCII `TIME` strings. -/
def strLtB : List ℕ → List ℕ → Bool
  | [], [] => false
  | [], _ :: _ => true
  | _ :: _, [] => false
  | a :: as, b :: bs => if a < b then true else if b < a then false else strLtB as bs

/-- Lexicographic `≤` on character-code lists. -/
def strLeB (a b : List ℕ) : Bool :=
  !(strLtB b a)

/-- Does `s` start with `p`?  Models `TIME LIKE pattern` where the
pattern is a literal prefix followed by `%` (the only shape of pattern
the program uses; the patterns contain only digits and `-`, so SQLite's
ASCII case-insensitivity is irrelevant). -/
def startsWith : List ℕ → List ℕ → Bool
  | [], _ => true
  | _ :: _, [] => false
  | p :: ps, c :: cs => decide (p = c) && startsWith ps cs

/-- Decimal digits of a natural number, most significant first
(fuel-based so it reduces in the kernel). -/
def natToDigitsAux : ℕ → ℕ → List ℕ → List ℕ
  | 0, _, acc => acc
  | f + 1, n, acc => if n < 10 then (48 + n) :: acc else natToDigitsAux f (n / 10) ((48 + n % 10) :: acc)

/-- Character codes of Python's `str(n)` for a natural number. -/
def natToDigits (n : ℕ) : List ℕ :=
  natToDigitsAux (n + 1) n []

/-- Character codes of Python's `str(y)` for an integer. -/
def intStr (y : ℤ) : List ℕ :=
  if y < 0 then 45 :: natToDigits (-y).toNat else natToDigits y.toNat

/-- Character codes of Python's `f"{n:02d}"` for a natural number. -/
def pad2 (n : ℕ) : List ℕ :=
  if n < 10 then [48, 48 + n] else natToDigits n

/-- Character codes of Python's `f"{m:02d}"` for an integer. -/
def pad2Z (m : ℤ) : List ℕ :=
  if 0 ≤ m then pad2 m.toNat else 45 :: natToDigits (-m).toNat

/-- One row of the `BILL` table, restricted to the columns the verified
claims depend on: `TIME` (text timestamp, character codes), `AMOUNT`
(binary64 value, modelled as the rational it denotes), `UPDATE_TIME`
(nullable Unix seconds) and `TYPE` (`isConsume` models
`TYPE = '消费'`).  The free-text columns `INFO`, `NOTE`, `SOURCE` play
no part in any claim and are omitted. -/
structure BillRow where
  time : List ℕ
  amount : ℚ
  updateTime : Option ℚ
  isConsume : Bool
deriving DecidableEq

/-- `LIKE` pattern prefix `f"{year_str}-"` used by the annual queries. -/
def yearPat (y : ℤ) : List ℕ :=
  intStr y ++ [45]

/-- Expense rows of one year: `WHERE TIME LIKE 'y-%' AND TYPE = '消费'`. -/
def yearExpenseRows (db : List BillRow) (y : ℤ) : List BillRow :=
  db.filter fun r => r.isConsume && startsWith (yearPat y) r.time

/-- `LIKE` pattern prefix `f"{year_str}-{month_str}-"` used by the
monthly queries (`month_str = f"{month:02d}"`). -/
def monthPat (y m : ℤ) : List ℕ :=
  intStr y ++ [45] ++ pad2Z m ++ [45]

/-- Expense rows of one month:
`WHERE TIME LIKE 'y-mm-%' AND TYPE = '消费'`. -/
def monthExpenseRows (db : List BillRow) (y m : ℤ) : List BillRow :=
  db.filter fun r => r.isConsume && startsWith (monthPat y m) r.time

/-- `MAX(UPDATE_TIME)` over a set of rows (`NULL`s ignored, `none` when
no non-null value exists). -/
def maxUpd (rows : List BillRow) : Option ℚ :=
  rows.foldl
    (fun acc r =>
      match r.updateTime with
      | none => acc
      | some u =>
        match acc with
        | none => some u
        | some a => some (if a ≤ u then u else a))
    none

/-- `calculate_total_amount` from `generate_bill_report.py`: starts from
`Decimal('0')` and adds `Decimal(str(row[1]))` for every row.  `str` of
a binary64 value is its shortest round-tripping decimal representation,
so `Decimal(str(x))` denotes exactly the rational `x` denotes, and
`Decimal` addition is exact: the fold is exact rational addition. -/
def calculate_total_amount (rows : List BillRow) : ℚ :=
  rows.foldl (fun total r => total + r.amount) 0

/-- `get_annual_data` from `generate_bill_report.py`: per-month rows of
one year — `SUBSTR(TIME,1,7)` group key, `SUM(AMOUNT)` (binary64
accumulation), `COUNT(*)`, `MAX(UPDATE_TIME)` — ordered by month
ascending. -/
def get_annual_data (db : List BillRow) (y : ℤ) : List (List ℕ × ℚ × ℕ × Option ℚ) :=
  let rows := yearExpenseRows db y
  let keys := sortBy strLeB (rows.map fun r => r.time.take 7).dedup
  keys.map fun k =>
    let g := rows.filter fun r => decide (r.time.take 7 = k)
    (k, f64Sum (g.map fun r => r.amount), g.length, maxUpd g)

/-- Annual total from `main.py` line 151 (and the identical
`generate_bill_report.py` line 964):
`sum([float(row[1]) for row in monthly_data])` — a left-to-right Python
float sum over the queried per-month sums (`float` applied to a `REAL`
value is the identity). -/
def annualTotalOf (db : List BillRow) (y : ℤ) : ℚ :=
  f64Sum ((get_annual_data db y).map fun row => row.2.1)

/-- Two expense rows in distinct months of 2025 whose amounts are
`10^16.00` and `1.00` (both exactly representable in binary64, and both
surviving the `str`/`Decimal` round trip). -/
def c2db : List BillRow :=
  [ { time := [50,48,50,53,45,48,49,45,49,48,32,48,48,58,48,48,58,48,48],
      amount := 10000000000000000, updateTime := some 1, isConsume := true },
    { time := [50,48,50,53,45,48,50,45,49,48,32,48,48,58,48,48,58,48,48],
      amount := 1, updateTime := some 1, isConsume := true } ]

/-- Auxiliary: the exact fold of `calculate_total_amount` from an
arbitrary accumulator equals the accumulator plus the exact sum. -/
theorem calc_total_foldl (rows : List BillRow) :
    ∀ a : ℚ, rows.foldl (fun total r => total + r.amount) a
      = a + (rows.map fun r => r.amount).sum := by
  induction rows with
  | nil => intro a; simp
  | cons r rs ih => intro a; simp [ih, add_assoc]

/-- C2 counterexample: for the annual report the rendered total is the
binary64 left fold of the per-month sums (`main.py` line 151), not an
exact-decimal reduction, and it can differ from the exact decimal sum of
the original row amounts — with rows `10^16.00` and `1.00` the float
total is `10^16` while the exact decimal total is `10^16 + 1`, and the
two render different cent counts.  This refutes the claim that every
report kind's rendered total equals the exact decimal sum computed by an
exact-decimal reduction. -/
theorem c2_counterexample :
    annualTotalOf c2db 2025 ≠ calculate_total_amount (yearExpenseRows c2db 2025)
    ∧ round2he (annualTotalOf c2db 2025)
      ≠ round2he (calculate_total_amount (yearExpenseRows c2db 2025)) := by
  constructor
  · decide
  · decide

/-- C2 (amended): the monthly detail report's total is computed by an
exact-decimal reduction (`calculate_total_amount`) and equals the exact
decimal sum of the original row amounts, so its rendering matches the
rendering of the exact sum; the annual and summary totals, by contrast,
are binary64 sums (`annualTotalOf`) and may drift from the exact decimal
sum (see the counterexample). -/
theorem c2_exact_total_monthly :
    ∀ rows : List BillRow,
      calculate_total_amount rows = (rows.map fun r => r.amount).sum
      ∧ round2he (calculate_total_amount rows)
        = round2he ((rows.map fun r => r.amount).sum) := by
  intro rows
  have h : calculate_total_amount rows = (rows.map fun r => r.amount).sum := by
    simpa using calc_total_foldl rows 0
  exact ⟨h, by rw [h]⟩

/-- Outcome of one call to `generate_monthly_bill` /
`generate_annual_bill` / `generate_summary_bill`: `success` models a
normal return of `True` (detail query non-empty, artifact written),
`noData` models the early `return False` taken when the detail query
returns no qualifying rows (`generate_bill_report` query came back
empty), and `raise` models an uncaught exception from the renderer or
the file write. -/
inductive GenOutcome
  | success
  | noData
  | raise
deriving DecidableEq

/-- Output artifact identifiers; the three deterministic path shapes
`bill_{y}_{m:02d}.html`, `bill_{y}_annual.html`, `bill_summary.html`
(the path derivation is injective, so artifacts are identified by their
key). -/
inductive Artifact
  | monthly (y m : ℤ)
  | annual (y : ℤ)
  | summaryArt
deriving DecidableEq

/-- Logged outcome for one key: the `generated` print, the skip tally,
or the distinct no-data notice (`未找到...消费数据`).  Keys with no
watermark are never enumerated (`get_database_update_times` only
records truthy `MAX(UPDATE_TIME)` values), so they produce no event at
all. -/
inductive EventKind
  | generatedEvt
  | skippedEvt
  | noDataEvt
deriving DecidableEq

/-- Mutable state of `main` in `main.py`: `generated_count`, the three
skip counters, the artifacts written so far, and the per-key log
events. -/
structure SyncState where
  generated : ℕ
  skippedM : ℕ
  skippedA : ℕ
  skippedS : ℕ
  written : List Artifact
  events : List (Artifact × EventKind)
deriving DecidableEq

/-- Inputs of one incremental-sync run: the enumerated keys with their
watermarks (`monthly_times`, `annual_times`, `summary_time`, in dict
iteration order), the artifact mtime lookup
(`get_html_file_modification_time`), and the outcome each generator
call would have. -/
structure SyncEnv where
  monthlyTimes : List ((ℤ × ℤ) × ℚ)
  annualTimes : List (ℤ × ℚ)
  summaryTime : Option ℚ
  htmlTime : Artifact → Option ℚ
  monthlyGen : ℤ × ℤ → GenOutcome
  annualGen : ℤ → GenOutcome
  summaryGen : GenOutcome

/-- Result of a run: `done` models `main` reaching its final report and
`return 0`; `aborted` models an exception propagating out of the key
loops (there is no try/except around the generator calls in `main.py`,
only the `finally: conn.close()`), carrying the state reached so far. -/
inductive RunOut
  | done (st : SyncState)
  | aborted (st : SyncState)
deriving DecidableEq

/-- Effect of one generator call on the run state (the
`if generate_..._bill(...): generated_count += 1` pattern). -/
def applyGen (st : SyncState) (a : Artifact) : GenOutcome → RunOut
  | .success => .done { st with
      generated := st.generated + 1
      written := st.written ++ [a]
      events := st.events ++ [(a, .generatedEvt)] }
  | .noData => .done { st with events := st.events ++ [(a, .noDataEvt)] }
  | .raise => .aborted st

/-- Body of the monthly loop of `main` (`main.py` lines 239-248). -/
def stepMonthly (env : SyncEnv) (st : SyncState) (kt : (ℤ × ℤ) × ℚ) : RunOut :=
  let a := Artifact.monthly kt.1.1 kt.1.2
  if needs_regeneration (some kt.2) (env.htmlTime a) then
    applyGen st a (env.monthlyGen kt.1)
  else
    .done { st with skippedM := st.skippedM + 1, events := st.events ++ [(a, .skippedEvt)] }

/-- Body of the annual loop of `main` (`main.py` lines 255-264). -/
def stepAnnual (env : SyncEnv) (st : SyncState) (kt : ℤ × ℚ) : RunOut :=
  let a := Artifact.annual kt.1
  if needs_regeneration (some kt.2) (env.htmlTime a) then
    applyGen st a (env.annualGen kt.1)
  else
    .done { st with skippedA := st.skippedA + 1, events := st.events ++ [(a, .skippedEvt)] }

/-- A `for` loop over keys in which an exception in the body aborts the
whole loop (and hence the run). -/
def runKeys (step : SyncState → κ → RunOut) : SyncState → List κ → RunOut
  | st, [] => .done st
  | st, k :: ks =>
    match step st k with
    | .aborted e => .aborted e
    | .done st2 => runKeys step st2 ks

/-- Summary block of `main` (`main.py` lines 271-280; note the source
assigns `skipped_summary = 1` rather than incrementing). -/
def stepSummary (env : SyncEnv) (st : SyncState) : RunOut :=
  match env.summaryTime with
  | none => .done st
  | some t =>
    if needs_regeneration (some t) (env.htmlTime .summaryArt) then
      applyGen st .summaryArt env.summaryGen
    else
      .done { st with skippedS := 1, events := st.events ++ [(.summaryArt, .skippedEvt)] }

/-- Initial counters of a run. -/
def initSync : SyncState :=
  ⟨0, 0, 0, 0, [], []⟩

/-- One incremental-sync run (`main` in `main.py`): the monthly loop,
then the annual loop, then the summary block. -/
def runSync (env : SyncEnv) : RunOut :=
  match runKeys (stepMonthly env) initSync env.monthlyTimes with
  | .aborted e => .aborted e
  | .done st1 =>
    match runKeys (stepAnnual env) st1 env.annualTimes with
    | .aborted e => .aborted e
    | .done st2 => stepSummary env st2

/-- No generator call of the run raises. -/
def noRaise (env : SyncEnv) : Prop :=
  (∀ p ∈ env.monthlyTimes, env.monthlyGen p.1 ≠ GenOutcome.raise)
  ∧ (∀ p ∈ env.annualTimes, env.annualGen p.1 ≠ GenOutcome.raise)
  ∧ env.summaryGen ≠ GenOutcome.raise

/-- Events carried by a run result. -/
def runOutEvents : RunOut → List (Artifact × EventKind)
  | .done st => st.events
  | .aborted st => st.events

/-- Did the run complete its final report? -/
def runOutIsDone : RunOut → Bool
  | .done _ => true
  | .aborted _ => false

/-- A fresh comparison never fires. -/
theorem needs_regeneration_of_le {d t : ℚ} (h : d ≤ t) :
    needs_regeneration (some d) (some t) = false := by
  simp [needs_regeneration]
  exact h

/-- If every monthly key is fresh, the monthly loop only skips: it
completes, touches neither `generated` nor `written`, and adds one
skip per key. -/
theorem runKeys_monthly_fresh (env : SyncEnv) (l : List ((ℤ × ℤ) × ℚ))
    (hm : ∀ p ∈ l, ∃ t, env.htmlTime (Artifact.monthly p.1.1 p.1.2) = some t ∧ p.2 ≤ t) :
    ∀ st : SyncState, ∃ st2, runKeys (stepMonthly env) st l = RunOut.done st2
      ∧ st2.generated = st.generated ∧ st2.written = st.written
      ∧ st2.skippedM = st.skippedM + l.length
      ∧ st2.skippedA = st.skippedA ∧ st2.skippedS = st.skippedS := by
  induction l with
  | nil => intro st; exact ⟨st, rfl, rfl, rfl, by simp, rfl, rfl⟩
  | cons p ps ih =>
    intro st
    obtain ⟨t, ht, hle⟩ := hm p (List.mem_cons_self p ps)
    have hstep : stepMonthly env st p
        = RunOut.done { st with skippedM := st.skippedM + 1
                                events := st.events ++ [(Artifact.monthly p.1.1 p.1.2, EventKind.skippedEvt)] } := by
      simp [stepMonthly, ht, needs_regeneration_of_le hle]
    obtain ⟨st2, h1, h2, h3, h4, h5, h6⟩ :=
      ih (fun q hq => hm q (List.mem_cons_of_mem p hq))
        { st with skippedM := st.skippedM + 1
                  events := st.events ++ [(Artifact.monthly p.1.1 p.1.2, EventKind.skippedEvt)] }
    refine ⟨st2, ?_, h2, h3, ?_, h5, h6⟩
    · simpa [runKeys, hstep] using h1
    · rw [h4]
      show st.skippedM + 1 + ps.length = st.skippedM + (p :: ps).length
      simp only [List.length_cons]
      omega

/-- If every annual key is fresh, the annual loop only skips. -/
theorem runKeys_annual_fresh (env : SyncEnv) (l : List (ℤ × ℚ))
    (ha : ∀ p ∈ l, ∃ t, env.htmlTime (Artifact.annual p.1) = some t ∧ p.2 ≤ t) :
    ∀ st : SyncState, ∃ st2, runKeys (stepAnnual env) st l = RunOut.done st2
      ∧ st2.generated = st.generated ∧ st2.written = st.written
      ∧ st2.skippedA = st.skippedA + l.length
      ∧ st2.skippedM = st.skippedM ∧ st2.skippedS = st.skippedS := by
  induction l with
  | nil => intro st; exact ⟨st, rfl, rfl, rfl, by simp, rfl, rfl⟩
  | cons p ps ih =>
    intro st
    obtain ⟨t, ht, hle⟩ := ha p (List.mem_cons_self p ps)
    have hstep : stepAnnual env st p
        = RunOut.done { st with skippedA := st.skippedA + 1
                                events := st.events ++ [(Artifact.annual p.1, EventKind.skippedEvt)] } := by
      simp [stepAnnual, ht, needs_regeneration_of_le hle]
    obtain ⟨st2, h1, h2, h3, h4, h5, h6⟩ :=
      ih (fun q hq => ha q (List.mem_cons_of_mem p hq))
        { st with skippedA := st.skippedA + 1
                  events := st.events ++ [(Artifact.annual p.1, EventKind.skippedEvt)] }
    refine ⟨st2, ?_, h2, h3, ?_, h5, h6⟩
    · simpa [runKeys, hstep] using h1
    · rw [h4]
      show st.skippedA + 1 + ps.length = st.skippedA + (p :: ps).length
      simp only [List.length_cons]
      omega

/-- C4: a second sync run over unchanged data — every enumerated key's
artifact exists with a last-write time at least the key's watermark —
completes with zero newly generated artifacts and no file written:
every monthly and annual key is skipped (counted fresh), and the
summary, if enumerated, is skipped as well. -/
theorem c4_second_run_generates_nothing (env : SyncEnv)
    (hm : ∀ p ∈ env.monthlyTimes,
      ∃ t, env.htmlTime (Artifact.monthly p.1.1 p.1.2) = some t ∧ p.2 ≤ t)
    (ha : ∀ p ∈ env.annualTimes,
      ∃ t, env.htmlTime (Artifact.annual p.1) = some t ∧ p.2 ≤ t)
    (hs : ∀ w, env.summaryTime = some w →
      ∃ t, env.htmlTime Artifact.summaryArt = some t ∧ w ≤ t) :
    ∃ st, runSync env = RunOut.done st
      ∧ st.generated = 0 ∧ st.written = []
      ∧ st.skippedM = env.monthlyTimes.length
      ∧ st.skippedA = env.annualTimes.length
      ∧ (env.summaryTime ≠ none → st.skippedS = 1) := by
  obtain ⟨st1, e1, g1, w1, sm1, sa1, ss1⟩ :=
    runKeys_monthly_fresh env env.monthlyTimes hm initSync
  obtain ⟨st2, e2, g2, w2, sa2, sm2, ss2⟩ :=
    runKeys_annual_fresh env env.annualTimes ha st1
  unfold runSync
  simp only [e1]
  simp only [e2]
  match hsum : env.summaryTime with
  | none =>
    refine ⟨st2, by simp [stepSummary, hsum], ?_, ?_, ?_, ?_, ?_⟩
    · simp [g2, g1, initSync]
    · simp [w2, w1, initSync]
    · simp [sm2, sm1, initSync]
    · simp [sa2, sa1, initSync]
    · intro h; exact absurd rfl h
  | some w =>
    obtain ⟨t, ht, hle⟩ := hs w hsum
    refine ⟨{ st2 with skippedS := 1, events := st2.events ++ [(Artifact.summaryArt, EventKind.skippedEvt)] }, ?_, ?_, ?_, ?_, ?_, fun _ => rfl⟩
    · simp [stepSummary, hsum, ht, needs_regeneration_of_le hle]
    · simp [g2, g1, initSync]
    · simp [w2, w1, initSync]
    · simp [sm2, sm1, initSync]
    · simp [sa2, sa1, initSync]

/-- If a loop body always completes on the listed keys, the loop
completes. -/
theorem runKeys_all_done {κ : Type} (step : SyncState → κ → RunOut) (l : List κ)
    (h : ∀ k ∈ l, ∀ st : SyncState, ∃ st2, step st k = RunOut.done st2) :
    ∀ st : SyncState, ∃ st2, runKeys step st l = RunOut.done st2 := by
  induction l with
  | nil => intro st; exact ⟨st, rfl⟩
  | cons k ks ih =>
    intro st
    obtain ⟨st2, hst2⟩ := h k (List.mem_cons_self k ks) st
    obtain ⟨st3, hst3⟩ := ih (fun q hq st3 => h q (List.mem_cons_of_mem k hq) st3) st2
    exact ⟨st3, by simp [runKeys, hst2, hst3]⟩

/-- A monthly step whose generator does not raise completes. -/
theorem stepMonthly_no_raise (env : SyncEnv) (p : (ℤ × ℤ) × ℚ)
    (h : env.monthlyGen p.1 ≠ GenOutcome.raise) :
    ∀ st : SyncState, ∃ st2, stepMonthly env st p = RunOut.done st2 := by
  intro st
  unfold stepMonthly
  cases hng : needs_regeneration (some p.2) (env.htmlTime (Artifact.monthly p.1.1 p.1.2)) with
  | false => exact ⟨_, by simp [hng]; rfl⟩
  | true =>
    cases hgen : env.monthlyGen p.1 with
    | success => exact ⟨_, by simp [hng, hgen, applyGen]; rfl⟩
    | noData => exact ⟨_, by simp [hng, hgen, applyGen]; rfl⟩
    | raise => exact absurd hgen h

/-- An annual step whose generator does not raise completes. -/
theorem stepAnnual_no_raise (env : SyncEnv) (p : ℤ × ℚ)
    (h : env.annualGen p.1 ≠ GenOutcome.raise) :
    ∀ st : SyncState, ∃ st2, stepAnnual env st p = RunOut.done st2 := by
  intro st
  unfold stepAnnual
  cases hng : needs_regeneration (some p.2) (env.htmlTime (Artifact.annual p.1)) with
  | false => exact ⟨_, by simp [hng]; rfl⟩
  | true =>
    cases hgen : env.annualGen p.1 with
    | success => exact ⟨_, by simp [hng, hgen, applyGen]; rfl⟩
    | noData => exact ⟨_, by simp [hng, hgen, applyGen]; rfl⟩
    | raise => exact absurd hgen h

/-- A summary step whose generator does not raise completes. -/
theorem stepSummary_no_raise (env : SyncEnv) (h : env.summaryGen ≠ GenOutcome.raise) :
    ∀ st : SyncState, ∃ st2, stepSummary env st = RunOut.done st2 := by
  intro st
  unfold stepSummary
  cases hsum : env.summaryTime with
  | none => exact ⟨st, rfl⟩
  | some t =>
    cases hng : needs_regeneration (some t) (env.htmlTime Artifact.summaryArt) with
    | false => exact ⟨_, by simp [hng]; rfl⟩
    | true =>
      cases hgen : env.summaryGen with
      | success => exact ⟨_, by simp [hng, hgen, applyGen]; rfl⟩
      | noData => exact ⟨_, by simp [hng, hgen, applyGen]; rfl⟩
      | raise => exact absurd hgen h

/-- Sync environment in which the first monthly key's generator raises
while a second stale monthly key follows it. -/
def c3env : SyncEnv :=
  { monthlyTimes := [((2025, 1), 5), ((2025, 2), 7)]
    annualTimes := []
    summaryTime := none
    htmlTime := fun _ => none
    monthlyGen := fun k => if k.2 = 1 then GenOutcome.raise else GenOutcome.success
    annualGen := fun _ => GenOutcome.success
    summaryGen := GenOutcome.success }

/-- Sync environment in which no generator raises. -/
def c3okEnv : SyncEnv :=
  { monthlyTimes := [((2025, 1), 5)]
    annualTimes := [(2024, 3)]
    summaryTime := some 7
    htmlTime := fun _ => none
    monthlyGen := fun _ => GenOutcome.success
    annualGen := fun _ => GenOutcome.success
    summaryGen := GenOutcome.success }

/-- C3 counterexample: in `c3env` both monthly keys are stale and the
first key's generator raises.  The run aborts in the initial state:
it does not complete its per-category report (`runOutIsDone` is
`false`), and the second key `(2025, 2)` is never processed (the event
log of the aborted run is empty).  This refutes the claim that a
renderer/write failure for one key is caught and leaves the remaining
keys unaffected: `main.py` has no try/except around the generator
calls. -/
theorem c3_counterexample :
    runSync c3env = RunOut.aborted initSync
    ∧ runOutEvents (runSync c3env) = []
    ∧ runOutIsDone (runSync c3env) = false := by
  refine ⟨by decide, by decide, by decide⟩

/-- C3 (amended): during an incremental-sync run, a per-key failure
signalled by the generator returning `False` (no qualifying data) is
isolated — see the zero-row theorem for C7 — and a run in which no
generator raises always completes its final report; but an exception
raised while generating one key's artifact is not caught: the run
aborts at that key, and no later key is processed (here stated for a
raise at the first stale monthly key: the run ends aborted in the
initial state with an empty event log). -/
theorem c3_exception_aborts_run :
    (∀ env : SyncEnv, noRaise env → ∃ st, runSync env = RunOut.done st)
    ∧ (∀ (env : SyncEnv) (k : ℤ × ℤ) (d : ℚ) (rest : List ((ℤ × ℤ) × ℚ)),
        env.monthlyTimes = (k, d) :: rest →
        needs_regeneration (some d) (env.htmlTime (Artifact.monthly k.1 k.2)) = true →
        env.monthlyGen k = GenOutcome.raise →
        runSync env = RunOut.aborted initSync ∧ runOutEvents (runSync env) = []) := by
  constructor
  · intro env ⟨hmg, hag, hsg⟩
    obtain ⟨st1, e1⟩ := runKeys_all_done (stepMonthly env) env.monthlyTimes
      (fun k hk => stepMonthly_no_raise env k (hmg k hk)) initSync
    obtain ⟨st2, e2⟩ := runKeys_all_done (stepAnnual env) env.annualTimes
      (fun k hk => stepAnnual_no_raise env k (hag k hk)) st1
    obtain ⟨st3, e3⟩ := stepSummary_no_raise env hsg st2
    refine ⟨st3, ?_⟩
    unfold runSync
    simp only [e1]
    simp only [e2]
    exact e3
  · intro env k d rest hmt hng hraise
    have habort : runSync env = RunOut.aborted initSync := by
      unfold runSync
      rw [hmt]
      have hstep : stepMonthly env initSync ((k, d) : (ℤ × ℤ) × ℚ) = RunOut.aborted initSync := by
        simp [stepMonthly, hng, hraise, applyGen]
      simp [runKeys, hstep]
    exact ⟨habort, by rw [habort]; rfl⟩

/-- Witness for C3 (amended): a raise-free environment completes, and in
`c3env` (first stale monthly key raises) the run aborts with an empty
event log. -/
theorem c3_witness :
    (∃ st, runSync c3okEnv = RunOut.done st)
    ∧ (runSync c3env = RunOut.aborted initSync ∧ runOutEvents (runSync c3env) = []) :=
  ⟨c3_exception_aborts_run.1 c3okEnv ⟨by decide, by decide, by decide⟩,
   c3_exception_aborts_run.2 c3env (2025, 1) 5 [((2025, 2), 7)] rfl (by decide) rfl⟩

/-- Sync environment whose generators find no qualifying rows. -/
def c7env : SyncEnv :=
  { monthlyTimes := [((2025, 3), 5)]
    annualTimes := [(2024, 2)]
    summaryTime := none
    htmlTime := fun _ => none
    monthlyGen := fun _ => GenOutcome.noData
    annualGen := fun _ => GenOutcome.noData
    summaryGen := GenOutcome.success }

/-- C7: a key with a present watermark that is judged stale but whose
detail query returns zero qualifying rows is handled defensively: the
generator returns `False` after printing the no-data notice (an event
distinct from the skip event and from the no-watermark case, which
logs nothing because such keys are never enumerated), no artifact is
written (`written` unchanged), the key is counted as neither generated
nor skipped (all counters unchanged), and the loop continues with the
remaining keys exactly as if started from the post-notice state.
Stated for the monthly loop (`main.py` lines 243-248 with
`generate_monthly_bill` lines 117-120) and the annual step
(`generate_annual_bill` lines 144-148). -/
theorem c7_zero_rows_skipped :
    ∀ (env : SyncEnv) (st : SyncState) (y m : ℤ) (d : ℚ)
      (rest : List ((ℤ × ℤ) × ℚ)) (yA : ℤ) (dA : ℚ),
      (needs_regeneration (some d) (env.htmlTime (Artifact.monthly y m)) = true →
        env.monthlyGen (y, m) = GenOutcome.noData →
        stepMonthly env st ((y, m), d)
          = RunOut.done { st with events := st.events ++ [(Artifact.monthly y m, EventKind.noDataEvt)] }
        ∧ runKeys (stepMonthly env) st (((y, m), d) :: rest)
          = runKeys (stepMonthly env)
              { st with events := st.events ++ [(Artifact.monthly y m, EventKind.noDataEvt)] } rest)
      ∧ (needs_regeneration (some dA) (env.htmlTime (Artifact.annual yA)) = true →
        env.annualGen yA = GenOutcome.noData →
        stepAnnual env st (yA, dA)
          = RunOut.done { st with events := st.events ++ [(Artifact.annual yA, EventKind.noDataEvt)] }) := by
  intro env st y m d rest yA dA
  constructor
  · intro hng hgen
    have hstep : stepMonthly env st ((y, m), d)
        = RunOut.done { st with events := st.events ++ [(Artifact.monthly y m, EventKind.noDataEvt)] } := by
      simp [stepMonthly, hng, hgen, applyGen]
    exact ⟨hstep, by simp [runKeys, hstep]⟩
  · intro hng hgen
    simp [stepAnnual, hng, hgen, applyGen]

/-- Witness for C7 at a concrete environment: the stale monthly key
`(2025, 3)` and the stale annual key `2024` report no data; the step
only appends the no-data notice and the loop proceeds. -/
theorem c7_witness :
    (stepMonthly c7env initSync ((2025, 3), 5)
      = RunOut.done { initSync with events := initSync.events ++ [(Artifact.monthly 2025 3, EventKind.noDataEvt)] }
    ∧ runKeys (stepMonthly c7env) initSync [((2025, 3), 5)]
      = runKeys (stepMonthly c7env)
          { initSync with events := initSync.events ++ [(Artifact.monthly 2025 3, EventKind.noDataEvt)] } [])
    ∧ stepAnnual c7env initSync (2024, 2)
      = RunOut.done { initSync with events := initSync.events ++ [(Artifact.annual 2024, EventKind.noDataEvt)] } :=
  ⟨(c7_zero_rows_skipped c7env initSync 2025 3 5 [] 2024 2).1 (by decide) rfl,
   (c7_zero_rows_skipped c7env initSync 2025 3 5 [] 2024 2).2 (by decide) rfl⟩

/-- Sync environment for the C4 witness: one monthly key, one annual
key and the summary, all with existing artifacts at least as new as
their watermarks. -/
def c4env : SyncEnv :=
  { monthlyTimes := [((2025, 1), 5)]
    annualTimes := [(2025, 6)]
    summaryTime := some 7
    htmlTime := fun _ => some 10
    monthlyGen := fun _ => GenOutcome.success
    annualGen := fun _ => GenOutcome.success
    summaryGen := GenOutcome.success }

/-- Witness for C4: in `c4env` every artifact is at least as new as its
watermark and the run generates nothing. -/
theorem c4_witness :
    ∃ st, runSync c4env = RunOut.done st
      ∧ st.generated = 0 ∧ st.written = []
      ∧ st.skippedM = c4env.monthlyTimes.length
      ∧ st.skippedA = c4env.annualTimes.length
      ∧ (c4env.summaryTime ≠ none → st.skippedS = 1) := by
  refine c4_second_run_generates_nothing c4env ?_ ?_ ?_
  · intro p hp
    simp only [c4env, List.mem_singleton] at hp
    subst hp
    exact ⟨10, rfl, by norm_num⟩
  · intro p hp
    simp only [c4env, List.mem_singleton] at hp
    subst hp
    exact ⟨10, rfl, by norm_num⟩
  · intro w hw
    simp only [c4env, Option.some.injEq] at hw
    refine ⟨10, rfl, ?_⟩
    rw [← hw]
    norm_num

/-- Observable content of the final artifact path during the write
performed by `generate_monthly_bill` / `generate_annual_bill` /
`generate_summary_bill` (`main.py` lines 132-135, 160-163, 190-193):
`open(output_file, 'w')` opens the final path directly and truncates
it, then `f.write(html_content)` fills it.  The trace lists the content
at the final path before the write, after the truncating open, and
after the write completes (`none` = file absent, document text as
character codes). -/
def writeArtifactStates (old : Option (List ℕ)) (content : List ℕ) : List (Option (List ℕ)) :=
  [old, some [], some content]

/-- The atomic-replace property the claim asserts: at no point during
the write does the final artifact path hold anything but the previous
document or the complete new document (the guarantee a
write-to-temp-then-rename write would give). -/
def writeNeverTruncated (old : Option (List ℕ)) (content : List ℕ) : Prop :=
  ∀ s ∈ writeArtifactStates old content, s = old ∨ s = some content

/-- C5 counterexample: writing a non-empty document over an existing
artifact passes through a state in which the final path holds a
truncated (empty) document — the write is performed in place, not as
write-to-temp-then-rename.  Old content `"1"`, new content `"23"`. -/
theorem c5_counterexample :
    ¬ writeNeverTruncated (some [49]) [50, 51] := by
  unfold writeNeverTruncated writeArtifactStates
  decide

/-- C5 (amended): every artifact write opens the final path directly
and writes in place: the path passes through the truncated state
`some []` before holding the new content, so whenever the new document
is non-empty (and the old one was not already empty) the
atomic-replace property fails; and since the freshness comparator
looks only at timestamps, a truncated artifact whose last-write time
is at least the watermark is judged fresh by a subsequent run. -/
theorem c5_write_in_place :
    ∀ (old : Option (List ℕ)) (content : List ℕ),
      writeArtifactStates old content = [old, some [], some content]
      ∧ (content ≠ [] → old ≠ some [] → ¬ writeNeverTruncated old content)
      ∧ (∀ w t : ℚ, w ≤ t → needs_regeneration (some w) (some t) = false) := by
  intro old content
  refine ⟨rfl, ?_, fun w t h => needs_regeneration_of_le h⟩
  intro hc ho hN
  rcases hN (some []) (by simp [writeArtifactStates]) with h | h
  · exact ho h.symm
  · apply hc
    injection h with h2
    exact h2.symm

/-- Witness for C5 (amended) at old content `"1"`, new content `"23"`,
watermark 1 and artifact time 2. -/
theorem c5_witness :
    writeArtifactStates (some [49]) [50, 51] = [some [49], some [], some [50, 51]]
    ∧ ¬ writeNeverTruncated (some [49]) [50, 51]
    ∧ needs_regeneration (some 1) (some 2) = false := by
  obtain ⟨h1, h2, h3⟩ := c5_write_in_place (some [49]) [50, 51]
  exact ⟨h1, h2 (by decide) (by decide), h3 1 2 (by norm_num)⟩

/-- How a run of the on-demand generator can end its prologue: the
month-validation error (`parse_arguments`, `sys.exit(1)`), the
missing-database early return, or proceeding to connect to the
store. -/
inductive CliOutcome
  | monthError
  | dbMissing
  | proceed (year month : Option ℤ) (summary : Bool)
deriving DecidableEq

/-- Month validation of `parse_arguments`
(`generate_bill_report.py` lines 854-857): an explicit `--month`
outside 1..12 prints an error and exits with status 1. -/
def badMonth (month : Option ℤ) : Bool :=
  match month with
  | some m => decide (¬(1 ≤ m ∧ m ≤ 12))
  | none => false

/-- Prologue of the on-demand generator: `parse_arguments`
(month validation, then the default to summary mode when neither year
nor `--summary` is given) followed by the database existence check at
the start of `main` (`generate_bill_report.py` lines 875-878).  Both
checks run before `connect_database`: store I/O happens only in the
`proceed` outcome. -/
def onDemandPrologue (year month : Option ℤ) (summaryFlag dbExists : Bool) : CliOutcome :=
  if badMonth month then .monthError
  else
    let summary := if year.isNone && !summaryFlag then true else summaryFlag
    if !dbExists then .dbMissing
    else .proceed year month summary

/-- Process exit status for each prologue outcome: the month error
calls `sys.exit(1)`; the missing-database branch merely `return`s from
`main`, and the module-level call `main()` (unlike `main.py`'s
`sys.exit(main())`) discards the result, so the process exits 0. -/
def onDemandExit : CliOutcome → ℕ
  | .monthError => 1
  | .dbMissing => 0
  | .proceed _ _ _ => 0

/-- Whether any I/O against the store happens in this outcome. -/
def touchesStore : CliOutcome → Bool
  | .proceed _ _ _ => true
  | _ => false

/-- C8 counterexample: invoking the on-demand generator with a valid
month but a database path that does not exist produces the error
message and an early return before any store I/O — but the process
exit status is 0, not non-zero, refuting the claim's non-zero-exit
assertion for the missing-file case. -/
theorem c8_counterexample :
    onDemandPrologue (some 2025) (some 5) false false = CliOutcome.dbMissing
    ∧ onDemandExit (onDemandPrologue (some 2025) (some 5) false false) = 0 :=
  ⟨rfl, rfl⟩

/-- C8 (amended): a `--month` outside 1..12 yields the error outcome
with exit status 1 before any store I/O; a missing database file (with
a valid or absent month) yields the descriptive-error outcome before
any store I/O and with no output written, but the process exit status
is 0. -/
theorem c8_validation_paths :
    (∀ (year : Option ℤ) (m : ℤ) (summaryFlag dbExists : Bool),
      ¬(1 ≤ m ∧ m ≤ 12) →
      onDemandPrologue year (some m) summaryFlag dbExists = CliOutcome.monthError
      ∧ onDemandExit (onDemandPrologue year (some m) summaryFlag dbExists) = 1
      ∧ touchesStore (onDemandPrologue year (some m) summaryFlag dbExists) = false)
    ∧ (∀ (year month : Option ℤ) (summaryFlag : Bool),
      badMonth month = false →
      onDemandPrologue year month summaryFlag false = CliOutcome.dbMissing
      ∧ onDemandExit (onDemandPrologue year month summaryFlag false) = 0
      ∧ touchesStore (onDemandPrologue year month summaryFlag false) = false) := by
  constructor
  · intro year m sf db h
    have hb : badMonth (some m) = true := by
      simp only [badMonth, decide_eq_true_eq]
      exact h
    refine ⟨?_, ?_, ?_⟩ <;> simp [onDemandPrologue, hb, onDemandExit, touchesStore]
  · intro year month sf h
    refine ⟨?_, ?_, ?_⟩ <;> simp [onDemandPrologue, h, onDemandExit, touchesStore]

/-- Witness for C8 (amended): `--month 13` exits 1 before store I/O;
month 5 with a missing database file returns with exit status 0 before
store I/O. -/
theorem c8_witness :
    (onDemandPrologue none (some 13) false true = CliOutcome.monthError
      ∧ onDemandExit (onDemandPrologue none (some 13) false true) = 1
      ∧ touchesStore (onDemandPrologue none (some 13) false true) = false)
    ∧ (onDemandPrologue (some 2025) (some 5) false false = CliOutcome.dbMissing
      ∧ onDemandExit (onDemandPrologue (some 2025) (some 5) false false) = 0
      ∧ touchesStore (onDemandPrologue (some 2025) (some 5) false false) = false) :=
  ⟨c8_validation_paths.1 none 13 false true (by omega),
   c8_validation_paths.2 (some 2025) (some 5) false (by decide)⟩

/-- Is `c` an ASCII digit code? -/
def isDigitC (c : ℕ) : Bool :=
  decide (48 ≤ c ∧ c ≤ 57)

/-- Value of an ASCII digit code. -/
def dval (c : ℕ) : ℕ :=
  c - 48

/-- First successful result of `f` over the list: the ordered-choice
backtracking of a regex alternation (alternatives are tried left to
right and the first one under which the rest of the pattern succeeds
wins). -/
def firstSome (f : α → Option β) : List α → Option β
  | [] => none
  | x :: xs =>
    match f x with
    | some b => some b
    | none => firstSome f xs

/- CPython's `datetime.strptime(s, '%Y-%m-%d %H:%M:%S')` matches the
string against a regex built from per-directive fragments
(`Lib/_strptime.py`): `%Y ↦ \d\d\d\d`, `%m ↦ 1[0-2]|0[1-9]|[1-9]`,
`%d ↦ 3[01]|[12]\d|0[1-9]|[1-9]`, `%H ↦ 2[0-3]|[0-1]\d|\d`,
`%M ↦ [0-5]\d|\d`, `%S ↦ 6[0-1]|[0-5]\d|\d`, literal separators in
between — note the one- and two-digit alternatives: the format is NOT
fixed-width — and then requires the match to span the whole string,
finally constructing `datetime(...)`, which validates the year
(`1 ≤ y ≤ 9999`), the day against the month length, and rejects leap
seconds.  The candidate functions below give each directive's
alternatives in regex order as `(value, remaining input)` pairs; the
parse functions chain them with ordered choice.  (The model requires
the full-span condition inside the backtracking rather than checked
after an unanchored first match; for this rigid format — fixed
separators, digit-only fields whose later alternatives only consume
fewer characters — the two readings accept the same strings.) -/

/-- `%Y`: exactly four digits. -/
def yParse : List ℕ → Option (ℕ × List ℕ)
  | a :: b :: c :: d :: rest =>
    if isDigitC a && isDigitC b && isDigitC c && isDigitC d then
      some (1000 * dval a + 100 * dval b + 10 * dval c + dval d, rest)
    else none
  | _ => none

/-- `%m`: `1[0-2]|0[1-9]|[1-9]`. -/
def mCands : List ℕ → List (ℕ × List ℕ)
  | c1 :: c2 :: rest =>
    (if c1 = 49 ∧ 48 ≤ c2 ∧ c2 ≤ 50 then [(10 + dval c2, rest)] else [])
    ++ (if c1 = 48 ∧ 49 ≤ c2 ∧ c2 ≤ 57 then [(dval c2, rest)] else [])
    ++ (if 49 ≤ c1 ∧ c1 ≤ 57 then [(dval c1, c2 :: rest)] else [])
  | [c1] => if 49 ≤ c1 ∧ c1 ≤ 57 then [(dval c1, [])] else []
  | [] => []

/-- `%d`: `3[01]|[12]\d|0[1-9]|[1-9]`. -/
def dCands : List ℕ → List (ℕ × List ℕ)
  | c1 :: c2 :: rest =>
    (if c1 = 51 ∧ 48 ≤ c2 ∧ c2 ≤ 49 then [(30 + dval c2, rest)] else [])
    ++ (if (49 ≤ c1 ∧ c1 ≤ 50) ∧ 48 ≤ c2 ∧ c2 ≤ 57 then [(10 * dval c1 + dval c2, rest)] else [])
    ++ (if c1 = 48 ∧ 49 ≤ c2 ∧ c2 ≤ 57 then [(dval c2, rest)] else [])
    ++ (if 49 ≤ c1 ∧ c1 ≤ 57 then [(dval c1, c2 :: rest)] else [])
  | [c1] => if 49 ≤ c1 ∧ c1 ≤ 57 then [(dval c1, [])] else []
  | [] => []

/-- `%H`: `2[0-3]|[0-1]\d|\d`. -/
def hCands : List ℕ → List (ℕ × List ℕ)
  | c1 :: c2 :: rest =>
    (if c1 = 50 ∧ 48 ≤ c2 ∧ c2 ≤ 51 then [(20 + dval c2, rest)] else [])
    ++ (if (48 ≤ c1 ∧ c1 ≤ 49) ∧ 48 ≤ c2 ∧ c2 ≤ 57 then [(10 * dval c1 + dval c2, rest)] else [])
    ++ (if 48 ≤ c1 ∧ c1 ≤ 57 then [(dval c1, c2 :: rest)] else [])
  | [c1] => if 48 ≤ c1 ∧ c1 ≤ 57 then [(dval c1, [])] else []
  | [] => []

/-- `%M`: `[0-5]\d|\d`. -/
def minCands : List ℕ → List (ℕ × List ℕ)
  | c1 :: c2 :: rest =>
    (if (48 ≤ c1 ∧ c1 ≤ 53) ∧ 48 ≤ c2 ∧ c2 ≤ 57 then [(10 * dval c1 + dval c2, rest)] else [])
    ++ (if 48 ≤ c1 ∧ c1 ≤ 57 then [(dval c1, c2 :: rest)] else [])
  | [c1] => if 48 ≤ c1 ∧ c1 ≤ 57 then [(dval c1, [])] else []
  | [] => []

/-- `%S`: `6[0-1]|[0-5]\d|\d`. -/
def sCands : List ℕ → List (ℕ × List ℕ)
  | c1 :: c2 :: rest =>
    (if c1 = 54 ∧ 48 ≤ c2 ∧ c2 ≤ 49 then [(60 + dval c2, rest)] else [])
    ++ (if (48 ≤ c1 ∧ c1 ≤ 53) ∧ 48 ≤ c2 ∧ c2 ≤ 57 then [(10 * dval c1 + dval c2, rest)] else [])
    ++ (if 48 ≤ c1 ∧ c1 ≤ 57 then [(dval c1, c2 :: rest)] else [])
  | [c1] => if 48 ≤ c1 ∧ c1 ≤ 57 then [(dval c1, [])] else []
  | [] => []

/-- Consume one literal separator character. -/
def expectChar (ch : ℕ) : List ℕ → Option (List ℕ)
  | c :: rest => if c = ch then some rest else none
  | [] => none

/-- The fields of a parsed timestamp (`datetime` attributes). -/
structure DT where
  year : ℕ
  month : ℕ
  day : ℕ
  hour : ℕ
  minute : ℕ
  sec : ℕ
deriving DecidableEq

/-- Match `%S` and the end of the string. -/
def parseSecPart (y mo d h mi : ℕ) (s : List ℕ) : Option DT :=
  firstSome (fun p => if p.2 = [] then some ⟨y, mo, d, h, mi, p.1⟩ else none) (sCands s)

/-- Match `%M`, the `:` separator and the rest. -/
def parseMinPart (y mo d h : ℕ) (s : List ℕ) : Option DT :=
  firstSome (fun p => (expectChar 58 p.2).bind (parseSecPart y mo d h p.1)) (minCands s)

/-- Match `%H`, the `:` separator and the rest. -/
def parseHourPart (y mo d : ℕ) (s : List ℕ) : Option DT :=
  firstSome (fun p => (expectChar 58 p.2).bind (parseMinPart y mo d p.1)) (hCands s)

/-- Match `%d`, the space separator and the rest. -/
def parseDayPart (y mo : ℕ) (s : List ℕ) : Option DT :=
  firstSome (fun p => (expectChar 32 p.2).bind (parseHourPart y mo p.1)) (dCands s)

/-- Match `%m`, the `-` separator and the rest. -/
def parseMonthPart (y : ℕ) (s : List ℕ) : Option DT :=
  firstSome (fun p => (expectChar 45 p.2).bind (parseDayPart y p.1)) (mCands s)

/-- Match the whole `'%Y-%m-%d %H:%M:%S'` regex against the whole
string. -/
def regexMatchTs (s : List ℕ) : Option DT :=
  (yParse s).bind fun p => (expectChar 45 p.2).bind (parseMonthPart p.1)

/-- Gregorian leap year as the `datetime` module computes it. -/
def isLeap (y : ℕ) : Bool :=
  decide (y % 4 = 0 ∧ (y % 100 ≠ 0 ∨ y % 400 = 0))

/-- Length of a month, as validated by the `datetime` constructor. -/
def daysInMonth (y m : ℕ) : ℕ :=
  if m = 2 then (if isLeap y then 29 else 28)
  else if m = 4 ∨ m = 6 ∨ m = 9 ∨ m = 11 then 30
  else 31

/-- The `datetime(...)` constructor's validation applied to the regex
fields: `MINYEAR = 1` (the regex already caps the year at 9999 and the
hour/minute at 23/59), the day must fit the month, and seconds 60/61
(admitted by the `%S` regex) are rejected. -/
def validDT (f : DT) : Bool :=
  decide (1 ≤ f.year ∧ f.day ≤ daysInMonth f.year f.month ∧ f.sec ≤ 59)

/-- `datetime.strptime(s, '%Y-%m-%d %H:%M:%S')` as an `Option`: `none`
models the `ValueError` raised on a failed regex match or failed
`datetime` validation. -/
def strptimeDT (s : List ℕ) : Option DT :=
  match regexMatchTs s with
  | none => none
  | some f => if validDT f then some f else none

/-- Per-transaction time display of `generate_html`
(`generate_bill_report.py` lines 442-447): `strptime` with
`'%Y-%m-%d %H:%M:%S'` then `strftime('%m-%d %H:%M')` (zero-padded
fields), falling back to the raw stored string on any exception (the
bare `except`). -/
def formatRowTime (s : List ℕ) : List ℕ :=
  match strptimeDT s with
  | none => s
  | some f => pad2 f.month ++ [45] ++ pad2 f.day ++ [32] ++ pad2 f.hour ++ [58] ++ pad2 f.minute

/-- The claim's parse condition, written from its words: the stored
string is in the fixed-width format `YYYY-MM-DD HH:MM:SS` (two-digit
zero-padded fields at fixed positions) and denotes a timestamp the
`datetime` constructor accepts. -/
def parsesFixedB : List ℕ → Bool
  | [y1, y2, y3, y4, c1, m1, m2, c2, d1, d2, c3, h1, h2, c4, n1, n2, c5, s1, s2] =>
    isDigitC y1 && isDigitC y2 && isDigitC y3 && isDigitC y4
    && decide (c1 = 45) && decide (c2 = 45) && decide (c3 = 32)
    && decide (c4 = 58) && decide (c5 = 58)
    && isDigitC m1 && isDigitC m2 && isDigitC d1 && isDigitC d2
    && isDigitC h1 && isDigitC h2 && isDigitC n1 && isDigitC n2
    && isDigitC s1 && isDigitC s2
    && decide (1 ≤ 1000 * dval y1 + 100 * dval y2 + 10 * dval y3 + dval y4)
    && decide (1 ≤ 10 * dval m1 + dval m2 ∧ 10 * dval m1 + dval m2 ≤ 12)
    && decide (1 ≤ 10 * dval d1 + dval d2
        ∧ 10 * dval d1 + dval d2
          ≤ daysInMonth (1000 * dval y1 + 100 * dval y2 + 10 * dval y3 + dval y4)
              (10 * dval m1 + dval m2))
    && decide (10 * dval h1 + dval h2 ≤ 23)
    && decide (10 * dval n1 + dval n2 ≤ 59)
    && decide (10 * dval s1 + dval s2 ≤ 59)
  | _ => false

/-- Character codes of the stored string `"2025-3-05 10:20:30"` — a
valid timestamp written without zero-padding the month. -/
def c9str : List ℕ :=
  [50, 48, 50, 53, 45, 51, 45, 48, 53, 32, 49, 48, 58, 50, 48, 58, 51, 48]

/-- Two-digit values render as their two digits. -/
theorem natToDigits_two (v : ℕ) (h10 : 10 ≤ v) (h99 : v ≤ 99) :
    natToDigits v = [48 + v / 10, 48 + v % 10] := by
  obtain ⟨w, rfl⟩ : ∃ w, v = w + 1 := ⟨v - 1, by omega⟩
  unfold natToDigits
  rw [natToDigitsAux]
  rw [if_neg (by omega)]
  rw [natToDigitsAux]
  rw [if_pos (by omega)]

/-- Zero-padded rendering of the value of two digit characters gives
back exactly those two characters. -/
theorem pad2_two_digits (a b : ℕ) (ha1 : 48 ≤ a) (ha2 : a ≤ 57)
    (hb1 : 48 ≤ b) (hb2 : b ≤ 57) :
    pad2 (10 * dval a + dval b) = [a, b] := by
  unfold pad2 dval
  by_cases hv : 10 * (a - 48) + (b - 48) < 10
  · rw [if_pos hv]
    have ha : a = 48 := by omega
    subst ha
    have hb : 48 + (10 * (48 - 48) + (b - 48)) = b := by omega
    rw [hb]
  · rw [if_neg hv]
    rw [natToDigits_two _ (by omega) (by omega)]
    have h1 : (10 * (a - 48) + (b - 48)) / 10 = a - 48 := by omega
    have h2 : (10 * (a - 48) + (b - 48)) % 10 = b - 48 := by omega
    rw [h1, h2]
    have h3 : 48 + (a - 48) = a := by omega
    have h4 : 48 + (b - 48) = b := by omega
    rw [h3, h4]

/-- On a two-digit tail within range, the seconds field matches both
digits and the whole string ends. -/
theorem parseSecPart_two (y mo d h mi a b : ℕ)
    (ha1 : 48 ≤ a) (ha2 : a ≤ 57) (hb1 : 48 ≤ b) (hb2 : b ≤ 57)
    (hv : 10 * dval a + dval b ≤ 59) :
    parseSecPart y mo d h mi [a, b] = some ⟨y, mo, d, h, mi, 10 * dval a + dval b⟩ := by
  simp only [dval] at hv
  unfold parseSecPart
  simp only [sCands]
  rw [if_neg (show ¬(a = 54 ∧ 48 ≤ b ∧ b ≤ 49) by omega)]
  rw [if_pos (show (48 ≤ a ∧ a ≤ 53) ∧ 48 ≤ b ∧ b ≤ 57 by omega)]
  simp [firstSome]

/-- On a two-digit minute within range followed by `:`, the minute
field matches both digits and hands the tail to the seconds parser. -/
theorem parseMinPart_two (y mo d h a b : ℕ) (tail : List ℕ) (f0 : DT)
    (ha1 : 48 ≤ a) (ha2 : a ≤ 57) (hb1 : 48 ≤ b) (hb2 : b ≤ 57)
    (hv : 10 * dval a + dval b ≤ 59)
    (hk : parseSecPart y mo d h (10 * dval a + dval b) tail = some f0) :
    parseMinPart y mo d h (a :: b :: 58 :: tail) = some f0 := by
  unfold parseMinPart
  simp only [minCands]
  rw [if_pos (show (48 ≤ a ∧ a ≤ 53) ∧ 48 ≤ b ∧ b ≤ 57 by simp only [dval] at hv; omega)]
  simp [firstSome, expectChar, hk]

/-- On a two-digit hour within range followed by `:`, the hour field
matches both digits and hands the tail to the minute parser. -/
theorem parseHourPart_two (y mo d a b : ℕ) (tail : List ℕ) (f0 : DT)
    (ha1 : 48 ≤ a) (ha2 : a ≤ 57) (hb1 : 48 ≤ b) (hb2 : b ≤ 57)
    (hv : 10 * dval a + dval b ≤ 23)
    (hk : parseMinPart y mo d (10 * dval a + dval b) tail = some f0) :
    parseHourPart y mo d (a :: b :: 58 :: tail) = some f0 := by
  unfold parseHourPart
  simp only [hCands]
  by_cases h50 : a = 50
  · subst h50
    rw [if_pos (show (50:ℕ) = 50 ∧ 48 ≤ b ∧ b ≤ 51 by simp only [dval] at hv; omega)]
    have he : (10 : ℕ) * dval 50 + dval b = 20 + dval b := by norm_num [dval]
    rw [he] at hk
    simp [firstSome, expectChar, hk]
  · rw [if_neg (fun hcon => h50 hcon.1)]
    rw [if_pos (show (48 ≤ a ∧ a ≤ 49) ∧ 48 ≤ b ∧ b ≤ 57 by simp only [dval] at hv; omega)]
    simp [firstSome, expectChar, hk]

/-- On a two-digit day within 1..31 followed by a space, the day field
matches both digits and hands the tail to the hour parser. -/
theorem parseDayPart_two (y mo a b : ℕ) (tail : List ℕ) (f0 : DT)
    (ha1 : 48 ≤ a) (ha2 : a ≤ 57) (hb1 : 48 ≤ b) (hb2 : b ≤ 57)
    (hv1 : 1 ≤ 10 * dval a + dval b) (hv2 : 10 * dval a + dval b ≤ 31)
    (hk : parseHourPart y mo (10 * dval a + dval b) tail = some f0) :
    parseDayPart y mo (a :: b :: 32 :: tail) = some f0 := by
  unfold parseDayPart
  simp only [dCands]
  by_cases h51 : a = 51
  · subst h51
    rw [if_pos (show (51:ℕ) = 51 ∧ 48 ≤ b ∧ b ≤ 49 by simp only [dval] at hv2; omega)]
    have he : (10 : ℕ) * dval 51 + dval b = 30 + dval b := by norm_num [dval]
    rw [he] at hk
    simp [firstSome, expectChar, hk]
  · by_cases h48 : a = 48
    · subst h48
      rw [if_neg (show ¬((48:ℕ) = 51 ∧ 48 ≤ b ∧ b ≤ 49) by omega)]
      rw [if_neg (show ¬((49 ≤ 48 ∧ (48:ℕ) ≤ 50) ∧ 48 ≤ b ∧ b ≤ 57) by omega)]
      rw [if_pos (show (48:ℕ) = 48 ∧ 49 ≤ b ∧ b ≤ 57 by simp only [dval] at hv1; omega)]
      have he : (10 : ℕ) * dval 48 + dval b = dval b := by norm_num [dval]
      rw [he] at hk
      simp [firstSome, expectChar, hk]
    · rw [if_neg (fun hcon => h51 hcon.1)]
      rw [if_pos (show (49 ≤ a ∧ a ≤ 50) ∧ 48 ≤ b ∧ b ≤ 57 by simp only [dval] at hv2; omega)]
      simp [firstSome, expectChar, hk]

/-- On a two-digit month within 1..12 followed by `-`, the month field
matches both digits and hands the tail to the day parser. -/
theorem parseMonthPart_two (y a b : ℕ) (tail : List ℕ) (f0 : DT)
    (ha1 : 48 ≤ a) (ha2 : a ≤ 57) (hb1 : 48 ≤ b) (hb2 : b ≤ 57)
    (hv1 : 1 ≤ 10 * dval a + dval b) (hv2 : 10 * dval a + dval b ≤ 12)
    (hk : parseDayPart y (10 * dval a + dval b) tail = some f0) :
    parseMonthPart y (a :: b :: 45 :: tail) = some f0 := by
  unfold parseMonthPart
  simp only [mCands]
  by_cases h49 : a = 49
  · subst h49
    rw [if_pos (show (49:ℕ) = 49 ∧ 48 ≤ b ∧ b ≤ 50 by simp only [dval] at hv2; omega)]
    have he : (10 : ℕ) * dval 49 + dval b = 10 + dval b := by norm_num [dval]
    rw [he] at hk
    simp [firstSome, expectChar, hk]
  · rw [if_neg (fun hcon => h49 hcon.1)]
    rw [if_pos (show a = 48 ∧ 49 ≤ b ∧ b ≤ 57 by simp only [dval] at hv1 hv2; omega)]
    have ha : a = 48 := by simp only [dval] at hv2; omega
    subst ha
    have he : (10 : ℕ) * dval 48 + dval b = dval b := by norm_num [dval]
    rw [he] at hk
    simp [firstSome, expectChar, hk]

/-- No month is longer than 31 days. -/
theorem daysInMonth_le (y m : ℕ) : daysInMonth y m ≤ 31 := by
  unfold daysInMonth
  split
  · split <;> omega
  · split <;> omega

/-- A fixed-width well-formed timestamp string matches the lenient
regex with each two-digit field consuming exactly its two characters. -/
theorem regexMatchTs_fixed
    (y1 y2 y3 y4 m1 m2 d1 d2 h1 h2 n1 n2 s1 s2 : ℕ)
    (hy1 : 48 ≤ y1 ∧ y1 ≤ 57) (hy2 : 48 ≤ y2 ∧ y2 ≤ 57)
    (hy3 : 48 ≤ y3 ∧ y3 ≤ 57) (hy4 : 48 ≤ y4 ∧ y4 ≤ 57)
    (hm1 : 48 ≤ m1 ∧ m1 ≤ 57) (hm2 : 48 ≤ m2 ∧ m2 ≤ 57)
    (hd1 : 48 ≤ d1 ∧ d1 ≤ 57) (hd2 : 48 ≤ d2 ∧ d2 ≤ 57)
    (hh1 : 48 ≤ h1 ∧ h1 ≤ 57) (hh2 : 48 ≤ h2 ∧ h2 ≤ 57)
    (hn1 : 48 ≤ n1 ∧ n1 ≤ 57) (hn2 : 48 ≤ n2 ∧ n2 ≤ 57)
    (hs1 : 48 ≤ s1 ∧ s1 ≤ 57) (hs2 : 48 ≤ s2 ∧ s2 ≤ 57)
    (hmon1 : 1 ≤ 10 * dval m1 + dval m2) (hmon2 : 10 * dval m1 + dval m2 ≤ 12)
    (hday1 : 1 ≤ 10 * dval d1 + dval d2) (hday2 : 10 * dval d1 + dval d2 ≤ 31)
    (hhr : 10 * dval h1 + dval h2 ≤ 23)
    (hmin : 10 * dval n1 + dval n2 ≤ 59)
    (hsec : 10 * dval s1 + dval s2 ≤ 59) :
    regexMatchTs [y1, y2, y3, y4, 45, m1, m2, 45, d1, d2, 32, h1, h2, 58, n1, n2, 58, s1, s2]
      = some ⟨1000 * dval y1 + 100 * dval y2 + 10 * dval y3 + dval y4,
              10 * dval m1 + dval m2, 10 * dval d1 + dval d2,
              10 * dval h1 + dval h2, 10 * dval n1 + dval n2,
              10 * dval s1 + dval s2⟩ := by
  have hsecp := parseSecPart_two (1000 * dval y1 + 100 * dval y2 + 10 * dval y3 + dval y4)
    (10 * dval m1 + dval m2) (10 * dval d1 + dval d2) (10 * dval h1 + dval h2)
    (10 * dval n1 + dval n2) s1 s2 hs1.1 hs1.2 hs2.1 hs2.2 hsec
  have hminp := parseMinPart_two (1000 * dval y1 + 100 * dval y2 + 10 * dval y3 + dval y4)
    (10 * dval m1 + dval m2) (10 * dval d1 + dval d2) (10 * dval h1 + dval h2)
    n1 n2 [s1, s2] _ hn1.1 hn1.2 hn2.1 hn2.2 hmin hsecp
  have hhrp := parseHourPart_two (1000 * dval y1 + 100 * dval y2 + 10 * dval y3 + dval y4)
    (10 * dval m1 + dval m2) (10 * dval d1 + dval d2)
    h1 h2 (n1 :: n2 :: 58 :: [s1, s2]) _ hh1.1 hh1.2 hh2.1 hh2.2 hhr hminp
  have hdayp := parseDayPart_two (1000 * dval y1 + 100 * dval y2 + 10 * dval y3 + dval y4)
    (10 * dval m1 + dval m2)
    d1 d2 (h1 :: h2 :: 58 :: n1 :: n2 :: 58 :: [s1, s2]) _ hd1.1 hd1.2 hd2.1 hd2.2
    hday1 hday2 hhrp
  have hmonp := parseMonthPart_two (1000 * dval y1 + 100 * dval y2 + 10 * dval y3 + dval y4)
    m1 m2 (d1 :: d2 :: 32 :: h1 :: h2 :: 58 :: n1 :: n2 :: 58 :: [s1, s2]) _
    hm1.1 hm1.2 hm2.1 hm2.2 hmon1 hmon2 hdayp
  unfold regexMatchTs
  simp only [yParse]
  rw [if_pos (show (isDigitC y1 && isDigitC y2 && isDigitC y3 && isDigitC y4) = true by
    simp only [isDigitC, Bool.and_eq_true, decide_eq_true_eq]
    omega)]
  simp [expectChar, hmonp]

/-- A fixed-width well-formed timestamp string `strptime`s to its
field values. -/
theorem strptimeDT_fixed
    (y1 y2 y3 y4 m1 m2 d1 d2 h1 h2 n1 n2 s1 s2 : ℕ)
    (hy1 : 48 ≤ y1 ∧ y1 ≤ 57) (hy2 : 48 ≤ y2 ∧ y2 ≤ 57)
    (hy3 : 48 ≤ y3 ∧ y3 ≤ 57) (hy4 : 48 ≤ y4 ∧ y4 ≤ 57)
    (hm1 : 48 ≤ m1 ∧ m1 ≤ 57) (hm2 : 48 ≤ m2 ∧ m2 ≤ 57)
    (hd1 : 48 ≤ d1 ∧ d1 ≤ 57) (hd2 : 48 ≤ d2 ∧ d2 ≤ 57)
    (hh1 : 48 ≤ h1 ∧ h1 ≤ 57) (hh2 : 48 ≤ h2 ∧ h2 ≤ 57)
    (hn1 : 48 ≤ n1 ∧ n1 ≤ 57) (hn2 : 48 ≤ n2 ∧ n2 ≤ 57)
    (hs1 : 48 ≤ s1 ∧ s1 ≤ 57) (hs2 : 48 ≤ s2 ∧ s2 ≤ 57)
    (hyr : 1 ≤ 1000 * dval y1 + 100 * dval y2 + 10 * dval y3 + dval y4)
    (hmon1 : 1 ≤ 10 * dval m1 + dval m2) (hmon2 : 10 * dval m1 + dval m2 ≤ 12)
    (hday1 : 1 ≤ 10 * dval d1 + dval d2)
    (hday2 : 10 * dval d1 + dval d2
      ≤ daysInMonth (1000 * dval y1 + 100 * dval y2 + 10 * dval y3 + dval y4)
          (10 * dval m1 + dval m2))
    (hhr : 10 * dval h1 + dval h2 ≤ 23)
    (hmin : 10 * dval n1 + dval n2 ≤ 59)
    (hsec : 10 * dval s1 + dval s2 ≤ 59) :
    strptimeDT [y1, y2, y3, y4, 45, m1, m2, 45, d1, d2, 32, h1, h2, 58, n1, n2, 58, s1, s2]
      = some ⟨1000 * dval y1 + 100 * dval y2 + 10 * dval y3 + dval y4,
              10 * dval m1 + dval m2, 10 * dval d1 + dval d2,
              10 * dval h1 + dval h2, 10 * dval n1 + dval n2,
              10 * dval s1 + dval s2⟩ := by
  have hday31 : 10 * dval d1 + dval d2 ≤ 31 :=
    le_trans hday2 (daysInMonth_le _ _)
  unfold strptimeDT
  rw [regexMatchTs_fixed y1 y2 y3 y4 m1 m2 d1 d2 h1 h2 n1 n2 s1 s2
    hy1 hy2 hy3 hy4 hm1 hm2 hd1 hd2 hh1 hh2 hn1 hn2 hs1 hs2
    hmon1 hmon2 hday1 hday31 hhr hmin hsec]
  have hv : validDT ⟨1000 * dval y1 + 100 * dval y2 + 10 * dval y3 + dval y4,
      10 * dval m1 + dval m2, 10 * dval d1 + dval d2,
      10 * dval h1 + dval h2, 10 * dval n1 + dval n2,
      10 * dval s1 + dval s2⟩ = true := by
    simp only [validDT, decide_eq_true_eq]
    exact ⟨hyr, hday2, hsec⟩
  simp [hv]

/-- C9 counterexample: the stored string `"2025-3-05 10:20:30"` does
not match the fixed-width format `YYYY-MM-DD HH:MM:SS` (the month has
one digit), yet CPython's width-lenient `strptime` parses it, so the
display is the re-rendered `"03-05 10:20"` rather than the raw stored
string — refuting the claim's "raw stored string otherwise"
characterisation of the parse condition. -/
theorem c9_counterexample :
    parsesFixedB c9str = false
    ∧ formatRowTime c9str = [48, 51, 45, 48, 53, 32, 49, 48, 58, 50, 48]
    ∧ formatRowTime c9str ≠ c9str :=
  ⟨rfl, rfl, by decide⟩

/-- C9 (amended): the per-row time display never raises and is total:
whenever `strptime` fails the raw stored string is displayed, whenever
it succeeds the display is the zero-padded `%m-%d %H:%M` rendering of
the parsed fields — which, for every stored string in the fixed-width
format `YYYY-MM-DD HH:MM:SS`, equals the stored timestamp truncated to
month-day hour:minute (characters 5..15, seconds dropped).  The parse
condition is CPython's width-lenient format, which also accepts some
non-padded strings (see the counterexample); only on those does the
display differ from a truncation of the raw string. -/
theorem c9_time_display :
    ∀ s : List ℕ,
      (strptimeDT s = none → formatRowTime s = s)
      ∧ (∀ f, strptimeDT s = some f →
          formatRowTime s
            = pad2 f.month ++ [45] ++ pad2 f.day ++ [32] ++ pad2 f.hour ++ [58] ++ pad2 f.minute)
      ∧ (∀ y1 y2 y3 y4 m1 m2 d1 d2 h1 h2 n1 n2 s1 s2 : ℕ,
          s = [y1, y2, y3, y4, 45, m1, m2, 45, d1, d2, 32, h1, h2, 58, n1, n2, 58, s1, s2] →
          parsesFixedB s = true →
          formatRowTime s = [m1, m2, 45, d1, d2, 32, h1, h2, 58, n1, n2]
          ∧ formatRowTime s = (s.drop 5).take 11) := by
  intro s
  refine ⟨?_, ?_, ?_⟩
  · intro h
    unfold formatRowTime
    rw [h]
  · intro f h
    unfold formatRowTime
    rw [h]
  · intro y1 y2 y3 y4 m1 m2 d1 d2 h1 h2 n1 n2 s1 s2 hs hfix
    subst hs
    simp only [parsesFixedB, Bool.and_eq_true, decide_eq_true_eq, isDigitC, and_assoc,
      eq_self_iff_true, true_and, and_true] at hfix
    obtain ⟨hy1a, hy1b, hy2a, hy2b, hy3a, hy3b, hy4a, hy4b, hm1a, hm1b, hm2a, hm2b,
      hd1a, hd1b, hd2a, hd2b, hh1a, hh1b, hh2a, hh2b, hn1a, hn1b, hn2a, hn2b,
      hs1a, hs1b, hs2a, hs2b, hyr, hmon1, hmon2, hday1, hday2, hhr, hmin, hsec⟩ := hfix
    have hparse := strptimeDT_fixed y1 y2 y3 y4 m1 m2 d1 d2 h1 h2 n1 n2 s1 s2
      ⟨hy1a, hy1b⟩ ⟨hy2a, hy2b⟩ ⟨hy3a, hy3b⟩ ⟨hy4a, hy4b⟩ ⟨hm1a, hm1b⟩ ⟨hm2a, hm2b⟩
      ⟨hd1a, hd1b⟩ ⟨hd2a, hd2b⟩ ⟨hh1a, hh1b⟩ ⟨hh2a, hh2b⟩ ⟨hn1a, hn1b⟩ ⟨hn2a, hn2b⟩
      ⟨hs1a, hs1b⟩ ⟨hs2a, hs2b⟩ hyr hmon1 hmon2 hday1 hday2 hhr hmin hsec
    have hmain : formatRowTime
        [y1, y2, y3, y4, 45, m1, m2, 45, d1, d2, 32, h1, h2, 58, n1, n2, 58, s1, s2]
        = [m1, m2, 45, d1, d2, 32, h1, h2, 58, n1, n2] := by
      unfold formatRowTime
      rw [hparse]
      show pad2 (10 * dval m1 + dval m2) ++ [45] ++ pad2 (10 * dval d1 + dval d2) ++ [32]
          ++ pad2 (10 * dval h1 + dval h2) ++ [58] ++ pad2 (10 * dval n1 + dval n2)
        = [m1, m2, 45, d1, d2, 32, h1, h2, 58, n1, n2]
      rw [pad2_two_digits m1 m2 hm1a hm1b hm2a hm2b,
        pad2_two_digits d1 d2 hd1a hd1b hd2a hd2b,
        pad2_two_digits h1 h2 hh1a hh1b hh2a hh2b,
        pad2_two_digits n1 n2 hn1a hn1b hn2a hn2b]
      rfl
    exact ⟨hmain, by rw [hmain]; rfl⟩

/-- Character codes of the fixed-width stored string
`"2025-07-15 12:34:56"`. -/
def c9fixedStr : List ℕ :=
  [50, 48, 50, 53, 45, 48, 55, 45, 49, 53, 32, 49, 50, 58, 51, 52, 58, 53, 54]

/-- Witness for C9 (amended): the fixed-width string
`"2025-07-15 12:34:56"` displays as its truncation `"07-15 12:34"`,
and the unparseable string `"123"` displays raw. -/
theorem c9_witness :
    formatRowTime c9fixedStr = [48, 55, 45, 49, 53, 32, 49, 50, 58, 51, 52]
    ∧ formatRowTime c9fixedStr = (c9fixedStr.drop 5).take 11
    ∧ formatRowTime [49, 50, 51] = [49, 50, 51] := by
  obtain ⟨h1, h2⟩ := (c9_time_display c9fixedStr).2.2
    50 48 50 53 48 55 49 53 49 50 51 52 53 54 rfl rfl
  exact ⟨h1, h2, (c9_time_display [49, 50, 51]).1 rfl⟩

/-- Result of one store query: `err` models a `sqlite3.Error` caught
by the surrounding try/except. -/
inductive QRes (α : Type)
  | err
  | ok (a : α)
deriving DecidableEq

/-- The queries `get_recent_3_months_data` performs, as an interface:
the latest-timestamp query (`SELECT MAX(TIME) ...`, whose single row
holds NULL when there are no expense rows) and the per-month aggregate
query (`SUM(AMOUNT), COUNT(*), MAX(UPDATE_TIME)`; the sum is `none`
when NULL, i.e. when no row matched the month pattern). -/
structure RecentIface where
  latestTime : QRes (Option (List ℕ))
  monthAgg : ℤ → ℤ → QRes (Option ℚ × ℕ × Option ℚ)

/-- While-loop of `get_recent_3_months_data`
(`generate_bill_report.py` lines 186-188): bring a month index into
range by repeatedly adding 12 and borrowing a year.  Fuel-based so it
reduces in the kernel; each iteration raises the month by 12, so
`(1 - m).toNat + 1` iterations always suffice. -/
def normMonthAux : ℕ → ℤ → ℤ → ℤ × ℤ
  | 0, y, m => (y, m)
  | f + 1, y, m => if m ≤ 0 then normMonthAux f (y - 1) (m + 12) else (y, m)

/-- `while target_month <= 0: target_month += 12; target_year -= 1`. -/
def normalizeMonth (y m : ℤ) : ℤ × ℤ :=
  normMonthAux ((1 - m).toNat + 1) y m

/-- Python tuple comparison `(y, m) ≥ (y', m')` as a Bool: the order
used by `months.sort(reverse=True)`. -/
def lexGeB (a b : ℤ × ℤ) : Bool :=
  if b.1 < a.1 then true
  else if a.1 = b.1 then decide (b.2 ≤ a.2)
  else false

/-- The three candidate months: the latest month and the two before
it, sorted descending (`generate_bill_report.py` lines 180-193; the
three months are pairwise distinct, so the model's insertion sort
agrees with Python's sort). -/
def recentMonthsOf (ly lm : ℤ) : List (ℤ × ℤ) :=
  sortBy lexGeB ((List.range 3).map fun i => normalizeMonth ly (lm - (i : ℤ)))

/-- One output row of `get_recent_3_months_data` for month `ym`:
`(year, month, float(SUM), COUNT, MAX(UPDATE_TIME))` when the
aggregate query returns a non-NULL sum, and the zero-valued entry
`(year, month, 0.0, 0, None)` when the query fails or the sum is NULL
(lines 210-223; `float` on a `REAL` value is the identity). -/
def recentEntry (q : RecentIface) (ym : ℤ × ℤ) : ℤ × ℤ × ℚ × ℕ × Option ℚ :=
  match q.monthAgg ym.1 ym.2 with
  | .err => (ym.1, ym.2, (0 : ℚ), 0, none)
  | .ok (none, _, _) => (ym.1, ym.2, (0 : ℚ), 0, none)
  | .ok (some sm, c, u) => (ym.1, ym.2, sm, c, u)

/-- `get_recent_3_months_data` (`generate_bill_report.py` lines
146-225): empty when the latest-time query fails, returns NULL, or
returns a timestamp `strptime` rejects; otherwise one entry per
candidate month derived from the parsed latest timestamp.  The
function reads only the store — the latest month comes from
`MAX(TIME)`, never from the wall clock. -/
def get_recent_3_months_data (q : RecentIface) : List (ℤ × ℤ × ℚ × ℕ × Option ℚ) :=
  match q.latestTime with
  | .err => []
  | .ok none => []
  | .ok (some ts) =>
    match strptimeDT ts with
    | none => []
    | some f => (recentMonthsOf (f.year : ℤ) (f.month : ℤ)).map (recentEntry q)

/-- `MAX(TIME)` over the expense rows of a concrete table (SQLite's
BINARY collation is byte order, i.e. lexicographic order on the ASCII
code lists); `none` when there are no expense rows. -/
def latestExpenseTime (db : List BillRow) : Option (List ℕ) :=
  (db.filter fun r => r.isConsume).foldl
    (fun acc r =>
      match acc with
      | none => some r.time
      | some t => if strLtB t r.time then some r.time else some t)
    none

/-- The aggregate row `SUM(AMOUNT), COUNT(*), MAX(UPDATE_TIME)` of one
month's expense rows in a concrete table. -/
def monthAggOf (db : List BillRow) (y m : ℤ) : Option ℚ × ℕ × Option ℚ :=
  let g := monthExpenseRows db y m
  (if g.isEmpty then none else some (f64Sum (g.map fun r => r.amount)), g.length, maxUpd g)

/-- The query interface realised by a concrete table (no store
errors). -/
def dbIface (db : List BillRow) : RecentIface :=
  { latestTime := .ok (latestExpenseTime db)
    monthAgg := fun y m => .ok (monthAggOf db y m) }

/-- Written from the spec's words: the calendar month before `(y, m)`. -/
def prevMonth (p : ℤ × ℤ) : ℤ × ℤ :=
  if p.2 = 1 then (p.1 - 1, 12) else (p.1, p.2 - 1)

/-- Written from the spec's words: the 3 calendar months ending
(inclusive) at `(y, m)`, in descending order. -/
def specRecent3 (y m : ℤ) : List (ℤ × ℤ) :=
  [(y, m), prevMonth (y, m), prevMonth (prevMonth (y, m))]

/-- A successful ordered choice comes from some candidate. -/
theorem firstSome_some {f : α → Option β} {l : List α} {b : β}
    (h : firstSome f l = some b) : ∃ x ∈ l, f x = some b := by
  induction l with
  | nil => simp [firstSome] at h
  | cons x xs ih =>
    cases hfx : f x with
    | some b2 =>
      simp only [firstSome, hfx] at h
      exact ⟨x, List.mem_cons_self x xs, by rw [hfx, h]⟩
    | none =>
      simp only [firstSome, hfx] at h
      obtain ⟨x2, hx2, hfx2⟩ := ih h
      exact ⟨x2, List.mem_cons_of_mem x hx2, hfx2⟩

/-- The seconds parser only fills in the seconds field. -/
theorem parseSecPart_month {y mo d h mi : ℕ} {s : List ℕ} {f : DT}
    (hp : parseSecPart y mo d h mi s = some f) : f.month = mo := by
  obtain ⟨x, _, hfx⟩ := firstSome_some hp
  by_cases hx : x.2 = []
  · rw [if_pos hx] at hfx
    injection hfx with h2
    rw [← h2]
  · rw [if_neg hx] at hfx
    exact absurd hfx (by simp)

/-- The minute parser preserves the month field. -/
theorem parseMinPart_month {y mo d h : ℕ} {s : List ℕ} {f : DT}
    (hp : parseMinPart y mo d h s = some f) : f.month = mo := by
  obtain ⟨x, _, hfx⟩ := firstSome_some hp
  rcases Option.bind_eq_some.mp hfx with ⟨r, _, hsec⟩
  exact parseSecPart_month hsec

/-- The hour parser preserves the month field. -/
theorem parseHourPart_month {y mo d : ℕ} {s : List ℕ} {f : DT}
    (hp : parseHourPart y mo d s = some f) : f.month = mo := by
  obtain ⟨x, _, hfx⟩ := firstSome_some hp
  rcases Option.bind_eq_some.mp hfx with ⟨r, _, hmin⟩
  exact parseMinPart_month hmin

/-- The day parser preserves the month field. -/
theorem parseDayPart_month {y mo : ℕ} {s : List ℕ} {f : DT}
    (hp : parseDayPart y mo s = some f) : f.month = mo := by
  obtain ⟨x, _, hfx⟩ := firstSome_some hp
  rcases Option.bind_eq_some.mp hfx with ⟨r, _, hhr⟩
  exact parseHourPart_month hhr

/-- Every `%m` candidate value is a calendar month. -/
theorem mCands_range {s : List ℕ} {p : ℕ × List ℕ}
    (hp : p ∈ mCands s) : 1 ≤ p.1 ∧ p.1 ≤ 12 := by
  match s with
  | [] => simp [mCands] at hp
  | [c1] =>
    simp only [mCands] at hp
    split at hp
    · rename_i hc
      simp only [List.mem_singleton] at hp
      subst hp
      simp only [dval]
      omega
    · simp at hp
  | c1 :: c2 :: rest =>
    simp only [mCands, List.mem_append] at hp
    rcases hp with (hp | hp) | hp
    · split at hp
      · rename_i hc
        simp only [List.mem_singleton] at hp
        subst hp
        simp only [dval]
        omega
      · simp at hp
    · split at hp
      · rename_i hc
        simp only [List.mem_singleton] at hp
        subst hp
        simp only [dval]
        omega
      · simp at hp
    · split at hp
      · rename_i hc
        simp only [List.mem_singleton] at hp
        subst hp
        simp only [dval]
        omega
      · simp at hp

/-- A parsed timestamp has a calendar month. -/
theorem strptimeDT_month_range {ts : List ℕ} {f : DT}
    (hp : strptimeDT ts = some f) : 1 ≤ f.month ∧ f.month ≤ 12 := by
  unfold strptimeDT at hp
  cases hre : regexMatchTs ts with
  | none => rw [hre] at hp; exact absurd hp (by simp)
  | some f2 =>
    simp only [hre] at hp
    by_cases hv : validDT f2 = true
    · rw [if_pos hv] at hp
      injection hp with h2
      subst h2
      unfold regexMatchTs at hre
      rcases Option.bind_eq_some.mp hre with ⟨py, _, hre2⟩
      rcases Option.bind_eq_some.mp hre2 with ⟨r2, _, hmon⟩
      obtain ⟨x, hx, hfx⟩ := firstSome_some hmon
      rcases Option.bind_eq_some.mp hfx with ⟨r3, _, hday⟩
      have hm := parseDayPart_month hday
      rw [hm]
      exact mCands_range hx
    · rw [if_neg hv] at hp
      exact absurd hp (by simp)

/-- `normalizeMonth` is the identity on positive month indices. -/
theorem normalizeMonth_pos (y m : ℤ) (h : 1 ≤ m) :
    normalizeMonth y m = (y, m) := by
  unfold normalizeMonth
  rw [show (1 - m).toNat = 0 by omega]
  unfold normMonthAux
  rw [if_neg (by omega)]

/-- `normalizeMonth` at month 0 borrows one year. -/
theorem normalizeMonth_zero (y : ℤ) :
    normalizeMonth y 0 = (y - 1, 12) := rfl

/-- `normalizeMonth` at month `-1` borrows one year. -/
theorem normalizeMonth_neg_one (y : ℤ) :
    normalizeMonth y (-1) = (y - 1, 11) := rfl

/-- A strict year drop is a tuple decrease. -/
theorem lexGeB_of_lt {a b : ℤ × ℤ} (h : b.1 < a.1) : lexGeB a b = true := by
  unfold lexGeB
  rw [if_pos h]

/-- Same year, smaller-or-equal month is a tuple decrease. -/
theorem lexGeB_of_eq {a b : ℤ × ℤ} (h : a.1 = b.1) (h2 : b.2 ≤ a.2) : lexGeB a b = true := by
  unfold lexGeB
  rw [if_neg (by omega), if_pos h]
  exact decide_eq_true h2

/-- A 3-element list already in descending order is its own sort. -/
theorem sort3_desc (a b c : ℤ × ℤ) (hab : lexGeB a b = true) (hbc : lexGeB b c = true) :
    sortBy lexGeB [a, b, c] = [a, b, c] := by
  simp [sortBy, insertBy, hab, hbc]

/-- For a calendar month index, the computed candidate months are
exactly the spec's 3 calendar months ending at `(y, m)`, descending. -/
theorem recentMonthsOf_eq_spec (y m : ℤ) (h1 : 1 ≤ m) (h2 : m ≤ 12) :
    recentMonthsOf y m = specRecent3 y m := by
  have hr : (List.range 3).map (fun i => normalizeMonth y (m - (i : ℤ)))
      = [normalizeMonth y (m - 0), normalizeMonth y (m - 1), normalizeMonth y (m - 2)] := rfl
  unfold recentMonthsOf
  rw [hr]
  by_cases hm1 : m = 1
  · subst hm1
    rw [show (1:ℤ) - 0 = 1 by norm_num, show (1:ℤ) - 1 = 0 by norm_num,
      show (1:ℤ) - 2 = -1 by norm_num]
    rw [normalizeMonth_pos y 1 le_rfl, normalizeMonth_zero, normalizeMonth_neg_one]
    rw [sort3_desc (y, 1) (y - 1, 12) (y - 1, 11)
      (lexGeB_of_lt (by omega)) (lexGeB_of_eq rfl (by omega))]
    unfold specRecent3 prevMonth
    norm_num
  · by_cases hm2 : m = 2
    · subst hm2
      rw [show (2:ℤ) - 0 = 2 by norm_num, show (2:ℤ) - 1 = 1 by norm_num,
        show (2:ℤ) - 2 = 0 by norm_num]
      rw [normalizeMonth_pos y 2 (by omega), normalizeMonth_pos y 1 le_rfl,
        normalizeMonth_zero]
      rw [sort3_desc (y, 2) (y, 1) (y - 1, 12)
        (lexGeB_of_eq rfl (by omega)) (lexGeB_of_lt (by omega))]
      unfold specRecent3 prevMonth
      norm_num
    · rw [normalizeMonth_pos y (m - 0) (by omega), normalizeMonth_pos y (m - 1) (by omega),
        normalizeMonth_pos y (m - 2) (by omega)]
      rw [sort3_desc (y, m - 0) (y, m - 1) (y, m - 2)
        (lexGeB_of_eq rfl (by omega)) (lexGeB_of_eq rfl (by omega))]
      unfold specRecent3 prevMonth
      rw [if_neg (by simpa using hm1)]
      rw [if_neg (by simp; omega)]
      norm_num
      omega

/-- The spec's month list strictly decreases in tuple order. -/
theorem specRecent3_chain (y m : ℤ) :
    List.Chain' (fun a b : ℤ × ℤ => b.1 < a.1 ∨ (a.1 = b.1 ∧ b.2 < a.2))
      (specRecent3 y m) := by
  have hstep : ∀ p : ℤ × ℤ,
      (prevMonth p).1 < p.1 ∨ (p.1 = (prevMonth p).1 ∧ (prevMonth p).2 < p.2) := by
    intro p
    unfold prevMonth
    by_cases hp : p.2 = 1
    · rw [if_pos hp]; left; omega
    · rw [if_neg hp]; right; exact ⟨rfl, by omega⟩
  unfold specRecent3
  simp only [List.chain'_cons, List.chain'_singleton, and_true]
  exact ⟨hstep (y, m), hstep (prevMonth (y, m))⟩

/-- Insertion grows a list by one element. -/
theorem insertBy_length (le : α → α → Bool) (x : α) (l : List α) :
    (insertBy le x l).length = l.length + 1 := by
  induction l with
  | nil => rfl
  | cons y ys ih =>
    unfold insertBy
    by_cases h : le x y
    · rw [if_pos h]; rfl
    · rw [if_neg h]; simp [ih]

/-- Sorting preserves length. -/
theorem sortBy_length (le : α → α → Bool) (l : List α) :
    (sortBy le l).length = l.length := by
  induction l with
  | nil => rfl
  | cons x xs ih =>
    unfold sortBy
    rw [insertBy_length, ih]
    rfl

/-- There are always exactly three candidate months. -/
theorem recentMonthsOf_length (y m : ℤ) : (recentMonthsOf y m).length = 3 := by
  unfold recentMonthsOf
  rw [sortBy_length, List.length_map]
  rfl

/-- Each output row carries its month key. -/
theorem recentEntry_key (q : RecentIface) (ym : ℤ × ℤ) :
    ((recentEntry q ym).1, (recentEntry q ym).2.1) = ym := by
  unfold recentEntry
  rcases q.monthAgg ym.1 ym.2 with _ | ⟨sm, c, u⟩
  · rfl
  · rcases sm with _ | sv
    · rfl
    · rfl

/-- C6: when the store has expense rows and their maximal stored
timestamp (`MAX(TIME)`, lexicographic = chronological for the
fixed-width stored format) parses to `f`, `get_recent_3_months_data`
returns rows for exactly the 3 calendar months ending (inclusive) at
`f`'s month — with year boundaries handled by the borrow loop, e.g.
latest month 2025-01 yields 2025-01, 2024-12, 2024-11 — ordered
descending by (year, month), with the zero-valued entry
`(y, m, 0.0, 0, None)` for each of those months that has no data.  The
latest month is determined only by the stored rows (the function has
no wall-clock input). -/
theorem c6_recent_three_months (db : List BillRow) (ts : List ℕ) (f : DT)
    (hmax : latestExpenseTime db = some ts)
    (hparse : strptimeDT ts = some f) :
    ((get_recent_3_months_data (dbIface db)).map fun e => (e.1, e.2.1))
      = specRecent3 (f.year : ℤ) (f.month : ℤ)
    ∧ List.Chain' (fun a b : ℤ × ℤ => b.1 < a.1 ∨ (a.1 = b.1 ∧ b.2 < a.2))
        ((get_recent_3_months_data (dbIface db)).map fun e => (e.1, e.2.1))
    ∧ (get_recent_3_months_data (dbIface db)).length = 3
    ∧ (∀ p ∈ specRecent3 (f.year : ℤ) (f.month : ℤ),
        monthExpenseRows db p.1 p.2 = [] →
        (p.1, p.2, (0 : ℚ), 0, (none : Option ℚ)) ∈ get_recent_3_months_data (dbIface db)) := by
  have hm := strptimeDT_month_range hparse
  have hmz1 : 1 ≤ (f.month : ℤ) := by exact_mod_cast hm.1
  have hmz2 : (f.month : ℤ) ≤ 12 := by exact_mod_cast hm.2
  have hres : get_recent_3_months_data (dbIface db)
      = (specRecent3 (f.year : ℤ) (f.month : ℤ)).map (recentEntry (dbIface db)) := by
    unfold get_recent_3_months_data dbIface
    simp only [hmax, hparse]
    rw [recentMonthsOf_eq_spec _ _ hmz1 hmz2]
  have hcomp : ((fun e : ℤ × ℤ × ℚ × ℕ × Option ℚ => (e.1, e.2.1))
      ∘ recentEntry (dbIface db)) = id :=
    funext fun ym => recentEntry_key _ ym
  refine ⟨?_, ?_, ?_, ?_⟩
  · rw [hres, List.map_map, hcomp, List.map_id]
  · rw [hres, List.map_map, hcomp, List.map_id]
    exact specRecent3_chain _ _
  · rw [hres, List.length_map]
    rfl
  · intro p hp hzero
    have he : recentEntry (dbIface db) p = (p.1, p.2, (0 : ℚ), 0, none) := by
      simp [recentEntry, dbIface, monthAggOf, hzero, maxUpd]
    rw [hres, ← he]
    exact List.mem_map_of_mem _ hp

/-- Concrete table for the C6 witness: expenses on
`2025-07-15 12:00:00` and `2025-05-01 08:30:00`. -/
def c6db : List BillRow :=
  [ { time := [50, 48, 50, 53, 45, 48, 55, 45, 49, 53, 32, 49, 50, 58, 48, 48, 58, 48, 48],
      amount := 10, updateTime := some 100, isConsume := true },
    { time := [50, 48, 50, 53, 45, 48, 53, 45, 48, 49, 32, 48, 56, 58, 51, 48, 58, 48, 48],
      amount := 5, updateTime := some 50, isConsume := true } ]

/-- Witness for C6: the latest record is July 2025, so the summary
months are 2025-07, 2025-06, 2025-05 descending, with a zero entry for
the data-less June. -/
theorem c6_witness :
    ((get_recent_3_months_data (dbIface c6db)).map fun e => (e.1, e.2.1))
      = specRecent3 2025 7
    ∧ (get_recent_3_months_data (dbIface c6db)).length = 3
    ∧ ((2025 : ℤ), (6 : ℤ), (0 : ℚ), 0, (none : Option ℚ))
        ∈ get_recent_3_months_data (dbIface c6db) := by
  have h := c6_recent_three_months c6db
    [50, 48, 50, 53, 45, 48, 55, 45, 49, 53, 32, 49, 50, 58, 48, 48, 58, 48, 48]
    ⟨2025, 7, 15, 12, 0, 0⟩ rfl rfl
  exact ⟨h.1, h.2.2.1, h.2.2.2 (2025, 6) (by decide) (by decide)⟩

/-- C10: `get_recent_3_months_data` returns a list of length exactly 0
or exactly 3: empty when the latest-timestamp query fails, returns
NULL (no expense records), or returns a timestamp that does not parse;
and exactly 3 entries once the latest timestamp parses, a failing
per-month aggregate query contributing the zero-valued entry
`(y, m, 0.0, 0, None)` rather than shortening the list. -/
theorem c10_result_shape (q : RecentIface) :
    ((get_recent_3_months_data q).length = 0 ∨ (get_recent_3_months_data q).length = 3)
    ∧ (q.latestTime = QRes.err → get_recent_3_months_data q = [])
    ∧ (q.latestTime = QRes.ok none → get_recent_3_months_data q = [])
    ∧ (∀ ts, q.latestTime = QRes.ok (some ts) → strptimeDT ts = none →
        get_recent_3_months_data q = [])
    ∧ (∀ ts f, q.latestTime = QRes.ok (some ts) → strptimeDT ts = some f →
        (get_recent_3_months_data q).length = 3
        ∧ ∀ p ∈ recentMonthsOf (f.year : ℤ) (f.month : ℤ),
            q.monthAgg p.1 p.2 = QRes.err →
            (p.1, p.2, (0 : ℚ), 0, (none : Option ℚ)) ∈ get_recent_3_months_data q) := by
  refine ⟨?_, ?_, ?_, ?_, ?_⟩
  · rcases hq : q.latestTime with _ | (_ | ts)
    · left; simp [get_recent_3_months_data, hq]
    · left; simp [get_recent_3_months_data, hq]
    · rcases hp : strptimeDT ts with _ | f
      · left; simp [get_recent_3_months_data, hq, hp]
      · right; simp [get_recent_3_months_data, hq, hp, recentMonthsOf_length]
  · intro h; simp [get_recent_3_months_data, h]
  · intro h; simp [get_recent_3_months_data, h]
  · intro ts h hp; simp [get_recent_3_months_data, h, hp]
  · intro ts f h hp
    constructor
    · simp [get_recent_3_months_data, h, hp, recentMonthsOf_length]
    · intro p hpmem herr
      have he : recentEntry q p = (p.1, p.2, (0 : ℚ), 0, none) := by
        simp [recentEntry, herr]
      simp only [get_recent_3_months_data, h, hp]
      rw [← he]
      exact List.mem_map_of_mem _ hpmem

/-- Interface whose latest-timestamp query fails. -/
def c10errQ : RecentIface :=
  { latestTime := QRes.err
    monthAgg := fun _ _ => QRes.err }

/-- Interface whose latest timestamp is `"2025-01-10 00:00:00"` but
whose per-month aggregate queries all fail. -/
def c10failQ : RecentIface :=
  { latestTime := QRes.ok (some [50, 48, 50, 53, 45, 48, 49, 45, 49, 48, 32, 48, 48, 58, 48, 48, 58, 48, 48])
    monthAgg := fun _ _ => QRes.err }

/-- Witness for C10: a failed latest query gives the empty list; a
January latest timestamp with failing month queries still gives 3
entries, the year-crossing month 2024-12 among them as a zero entry. -/
theorem c10_witness :
    get_recent_3_months_data c10errQ = []
    ∧ (get_recent_3_months_data c10failQ).length = 3
    ∧ ((2024 : ℤ), (12 : ℤ), (0 : ℚ), 0, (none : Option ℚ))
        ∈ get_recent_3_months_data c10failQ := by
  have h1 := (c10_result_shape c10errQ).2.1 rfl
  have h2 := (c10_result_shape c10failQ).2.2.2.2
    [50, 48, 50, 53, 45, 48, 49, 45, 49, 48, 32, 48, 48, 58, 48, 48, 58, 48, 48]
    ⟨2025, 1, 10, 0, 0, 0⟩ rfl rfl
  exact ⟨h1, h2.1, h2.2 (2024, 12) (by decide) rfl⟩

/-- C1: the regeneration decision is stale exactly when the watermark
strictly exceeds the artifact's last-write time: with both present the
decision is the strict comparison `w > t`; an absent watermark never
regenerates (whether or not the artifact exists); an absent artifact
with a present watermark is always stale; and equal timestamps count as
fresh (no rebuild).  Mirrors `needs_regeneration` in `main.py`. -/
theorem c1_needs_regeneration_decision :
    ∀ w t : ℚ,
      (needs_regeneration (some w) (some t) = true ↔ w > t)
      ∧ needs_regeneration none (some t) = false
      ∧ needs_regeneration none none = false
      ∧ needs_regeneration (some w) none = true
      ∧ needs_regeneration (some w) (some w) = false := by
  intro w t
  refine ⟨by simp [needs_regeneration], rfl, rfl, rfl, ?_⟩
  simp [needs_regeneration]
